import Mathlib

/-!
Verification development for the `ag_file_system_scanner` repository
(`src/main.rs`). The Rust source is shallowly embedded: the bitmask of
command-line options becomes a record of booleans, filesystem state becomes
an explicit tree datatype whose nodes carry the outcomes of the fallible
system calls (directory-entry read, metadata read, directory listing,
presenter rendering), and the traversal functions `calc_dir_size`,
`scan_path` and `search_path` become total Lean functions over that tree.
Output to the two standard streams is modelled as an explicit event list.
-/

/-- Record of the program options, one boolean per bit of the Rust
`OPTION_MASK` bitmask (enum `PrgOptions` in the source). -/
structure Flags where
  showRecursive : Bool
  showPermissions : Bool
  showLasttime : Bool
  showAbsnoindent : Bool
  showFiles : Bool
  showSymlinks : Bool
  showSpecial : Bool
  searchExact : Bool
  searchNoext : Bool
  searchContains : Bool
  showDirSize : Bool
  showErrors : Bool
  help : Bool
deriving DecidableEq, Repr

/-- All options cleared: the initial state of `OPTION_MASK`. -/
def Flags.allOff : Flags :=
  ⟨false, false, false, false, false, false, false, false, false, false,
   false, false, false⟩

/-- Counters of filesystem-entry kinds, embedding the Rust struct
`EntryCounter` with fields `_num_files`, `_num_symlinks`, `_num_special`,
`_num_dirs`. -/
structure EntryCounter where
  num_files : Nat
  num_symlinks : Nat
  num_special : Nat
  num_dirs : Nat
deriving DecidableEq, Repr

namespace EntryCounter

/-- Embeds `EntryCounter::new`: all counts zero. -/
def new : EntryCounter := ⟨0, 0, 0, 0⟩

/-- Embeds `EntryCounter::get_file_cnt`. -/
def get_file_cnt (c : EntryCounter) : Nat := c.num_files

/-- Embeds `EntryCounter::get_symlink_cnt`. -/
def get_symlink_cnt (c : EntryCounter) : Nat := c.num_symlinks

/-- Embeds `EntryCounter::get_special_cnt`. -/
def get_special_cnt (c : EntryCounter) : Nat := c.num_special

/-- Embeds `EntryCounter::get_dir_cnt`. -/
def get_dir_cnt (c : EntryCounter) : Nat := c.num_dirs

/-- Embeds `EntryCounter::get_entry_cnt`: sum of the four counts. -/
def get_entry_cnt (c : EntryCounter) : Nat :=
  c.num_files + c.num_symlinks + c.num_special + c.num_dirs

/-- Embeds `EntryCounter::inc_file_cnt`. -/
def inc_file_cnt (c : EntryCounter) (n : Nat) : EntryCounter :=
  { c with num_files := c.num_files + n }

/-- Embeds `EntryCounter::dec_file_cnt` (used only to undo a tentative
increment, so truncated `Nat` subtraction agrees with the `u64` one). -/
def dec_file_cnt (c : EntryCounter) (n : Nat) : EntryCounter :=
  { c with num_files := c.num_files - n }

/-- Embeds `EntryCounter::inc_symlink_cnt`. -/
def inc_symlink_cnt (c : EntryCounter) (n : Nat) : EntryCounter :=
  { c with num_symlinks := c.num_symlinks + n }

/-- Embeds `EntryCounter::dec_symlink_cnt`. -/
def dec_symlink_cnt (c : EntryCounter) (n : Nat) : EntryCounter :=
  { c with num_symlinks := c.num_symlinks - n }

/-- Embeds `EntryCounter::inc_special_cnt`. -/
def inc_special_cnt (c : EntryCounter) (n : Nat) : EntryCounter :=
  { c with num_special := c.num_special + n }

/-- Embeds `EntryCounter::dec_special_cnt`. -/
def dec_special_cnt (c : EntryCounter) (n : Nat) : EntryCounter :=
  { c with num_special := c.num_special - n }

/-- Embeds `EntryCounter::inc_dir_cnt`. -/
def inc_dir_cnt (c : EntryCounter) (n : Nat) : EntryCounter :=
  { c with num_dirs := c.num_dirs + n }

/-- Embeds `EntryCounter::dec_dir_cnt`. -/
def dec_dir_cnt (c : EntryCounter) (n : Nat) : EntryCounter :=
  { c with num_dirs := c.num_dirs - n }

/-- Componentwise merge of one counter into another, embedding the four
`inc_*_cnt(other.get_*_cnt())` calls used at the end of `scan_path` and
`search_path`. -/
def addCounts (c other : EntryCounter) : EntryCounter :=
  (((c.inc_symlink_cnt other.get_symlink_cnt).inc_file_cnt
      other.get_file_cnt).inc_dir_cnt other.get_dir_cnt).inc_special_cnt
    other.get_special_cnt

end EntryCounter

/-- Embeds the Rust enum `SpecialFileType`. -/
inductive SpecialFileType where
  | Socket
  | BlockDevice
  | CharDevice
  | Fifo
  | NA
deriving DecidableEq, Repr

/-- Raw metadata of a filesystem entry, embedding the queries the source
makes on `fs::Metadata` and `fs::FileType`: `is_symlink`, `is_file`,
`is_dir`, the four unix special-type tests, and `len`. -/
structure Metadata where
  is_symlink : Bool
  is_file : Bool
  is_dir : Bool
  is_socket : Bool
  is_block_device : Bool
  is_char_device : Bool
  is_fifo : Bool
  len : Nat
deriving DecidableEq, Repr

/-- Embeds the special-file detection chain at the top of the entry loop of
`scan_path` (and identically of `search_path`): socket, then block device,
then char device, then fifo, otherwise `NA`. -/
def specialFileType (m : Metadata) : SpecialFileType :=
  if m.is_socket then SpecialFileType.Socket
  else if m.is_block_device then SpecialFileType.BlockDevice
  else if m.is_char_device then SpecialFileType.CharDevice
  else if m.is_fifo then SpecialFileType.Fifo
  else SpecialFileType.NA

/-- The kind assigned to an entry by the branch chain of the entry loop. -/
inductive EntryKind where
  | symlink
  | file
  | dir
  | special (t : SpecialFileType)
deriving DecidableEq, Repr

/-- Embeds the branch chain of the entry loop of `scan_path` and
`search_path`: `is_symlink`, else `is_file && special_file_type == NA`,
else `is_dir`, else special with the detected subtype. -/
def classify (m : Metadata) : EntryKind :=
  if m.is_symlink then EntryKind.symlink
  else if m.is_file ∧ specialFileType m = SpecialFileType.NA then
    EntryKind.file
  else if m.is_dir then EntryKind.dir
  else EntryKind.special (specialFileType m)

/-- Modelled from the spec: the classification order as section 4.3 words
it — symlink check first, then the special-file checks, then regular-file,
then directory, with a fall-through to `Special(NotApplicable)`. Used to
compare the spec's stated order against `classify`, the order found in the
code. -/
def classifySpecOrder (m : Metadata) : EntryKind :=
  if m.is_symlink then EntryKind.symlink
  else if specialFileType m ≠ SpecialFileType.NA then
    EntryKind.special (specialFileType m)
  else if m.is_file then EntryKind.file
  else if m.is_dir then EntryKind.dir
  else EntryKind.special SpecialFileType.NA

/-- One entry produced while iterating a directory listing. The
constructors carry the outcomes of the fallible calls the source makes on
it: `entryErr` is a `ReadDir` item that is itself an `Err` (the
`let Ok(entry) = entry else continue` sites), `metaErr` is an entry whose
`entry.metadata()` call fails, and `node` is a fully readable entry with
its name, metadata, whether the presenter call on it would succeed
(`renderOk`), and — when it is a directory — whether `fs::read_dir` on it
succeeds (`listingOk`) and the entries it yields (`children`). -/
inductive FsTree where
  | entryErr
  | metaErr
  | node (name : String) (meta : Metadata) (renderOk : Bool)
      (listingOk : Bool) (children : List FsTree)

mutual

/-- Embeds `calc_dir_size` applied to a directory whose `fs::read_dir`
outcome is `listingOk` and whose entries are `cs`: `None` when the listing
fails, otherwise the accumulated size of the entries. -/
def calc_dir_size (listingOk : Bool) (cs : List FsTree) : Option Nat :=
  if listingOk then calcLoop cs else none
termination_by (sizeOf cs, 1)

/-- Embeds the entry loop of `calc_dir_size`: an `Err` entry is skipped, a
failing metadata read returns `None`, symlinks are skipped, file lengths
are added, subdirectories are recursed into with their failure propagated
immediately. -/
def calcLoop : List FsTree → Option Nat
  | [] => some 0
  | FsTree.entryErr :: rest => calcLoop rest
  | FsTree.metaErr :: _ => none
  | FsTree.node _ m _ lok cs :: rest =>
      if m.is_symlink then calcLoop rest
      else if m.is_file then (calcLoop rest).map (fun r => m.len + r)
      else if m.is_dir then
        match calc_dir_size lok cs with
        | none => none
        | some d => (calcLoop rest).map (fun r => d + r)
      else calcLoop rest
termination_by l => (sizeOf l, 0)

end

mutual

/-- Modelled from the spec: the failure condition that section 4.2 and
claim C1 describe for the size computation, written as a predicate on the
tree so that "returns failure only when ..." can be stated as an
equivalence. A directory computation fails when its own listing fails or
when its entry sequence fails. -/
def sizeFailsDir (listingOk : Bool) (cs : List FsTree) : Bool :=
  !listingOk || sizeFailsList cs
termination_by (sizeOf cs, 1)

/-- Modelled from the spec (companion of `sizeFailsDir`): the entry
sequence fails when it reaches an entry whose metadata cannot be read or a
non-symlink subdirectory whose own computation fails; `Err` entries and
symlinks never cause failure. -/
def sizeFailsList : List FsTree → Bool
  | [] => false
  | FsTree.entryErr :: rest => sizeFailsList rest
  | FsTree.metaErr :: _ => true
  | FsTree.node _ m _ lok cs :: rest =>
      if m.is_symlink then sizeFailsList rest
      else if m.is_file then sizeFailsList rest
      else if m.is_dir then sizeFailsDir lok cs || sizeFailsList rest
      else sizeFailsList rest
termination_by l => (sizeOf l, 0)

end

/-- A line written to one of the two standard streams: `listing` is
listing/summary text on standard output, `errOut` is an error report on
standard output, `errErr` is an error report on standard error. -/
inductive OutEvent where
  | listing (msg : String)
  | errOut (msg : String)
  | errErr (msg : String)
deriving DecidableEq, Repr

/-- The two accumulators threaded through `scan_path`:
`p_entry_cnts_init` (merged only by the level-0 frame) and
`p_entry_cnts_full` (merged by every frame). -/
structure ScanSt where
  init : EntryCounter
  full : EntryCounter
deriving DecidableEq, Repr

/-- Result of the entry loop of `scan_path`: the per-directory counter
`cur_entry_cnts`, the updated accumulators, the instrumented list of frame
levels visited by recursive calls, and the error lines written to standard
error. -/
structure LoopOut where
  cur : EntryCounter
  st : ScanSt
  visits : List Nat
  errs : List OutEvent
deriving DecidableEq, Repr

/-- Result of one `scan_path` frame: updated accumulators, whether the
frame returned an error (its own `fs::read_dir` failed), the levels of all
frames entered, and the error lines written to standard error. -/
structure ScanOut where
  st : ScanSt
  failed : Bool
  visits : List Nat
  errs : List OutEvent
deriving DecidableEq, Repr

/-- Embeds the accumulator merging at the end of `scan_path`: the
per-directory counter is merged into `p_entry_cnts_init` only when the
frame's level is 0, and into `p_entry_cnts_full` always. -/
def mergeScan (level : Nat) (cur : EntryCounter) (st : ScanSt) : ScanSt :=
  let st1 := if level = 0 then { st with init := st.init.addCounts cur } else st
  { st1 with full := st1.full.addCounts cur }

/-- The error message `scan_path` callers log for a failed recursive
traversal, and `scan_path_init`/`search_path_init` log for a failed root
listing. -/
def iterErrMsg (p : String) : String :=
  "Error while iterating over " ++ p

mutual

/-- Embeds `scan_path` on a directory whose `fs::read_dir` outcome is
`listingOk` with entries `cs`, at nesting level `level` with depth limit
`maxLevel` (`p_max_level`). On listing failure the error is returned to
the caller with the accumulators untouched; otherwise the entry loop runs
and the per-directory counter is merged. The `visits` field additionally
logs the levels of all frames entered, for stating depth properties. -/
def scan_path (fl : Flags) (maxLevel level : Nat) (listingOk : Bool)
    (cs : List FsTree) (st : ScanSt) : ScanOut :=
  if listingOk then
    let r := scanLoop fl maxLevel level cs EntryCounter.new st
    ⟨mergeScan level r.cur r.st, false, level :: r.visits, r.errs⟩
  else ⟨st, true, [level], []⟩
termination_by (sizeOf cs, 1)

/-- Embeds the entry loop of `scan_path`: unreadable entries and entries
with unreadable metadata are silently skipped; otherwise the entry's kind
counter is incremented, the visibility flag decides whether the presenter
runs, a failed render rolls the increment back, and a successfully
rendered directory is recursed into when recursion is enabled and the
depth limit allows. A failed recursive call is logged to standard error
when error display is on. -/
def scanLoop (fl : Flags) (maxLevel level : Nat) :
    List FsTree → EntryCounter → ScanSt → LoopOut
  | [], cur, st => ⟨cur, st, [], []⟩
  | FsTree.entryErr :: rest, cur, st => scanLoop fl maxLevel level rest cur st
  | FsTree.metaErr :: rest, cur, st => scanLoop fl maxLevel level rest cur st
  | FsTree.node name m rOk lok cs :: rest, cur, st =>
      match classify m with
      | EntryKind.symlink =>
          let cur1 := cur.inc_symlink_cnt 1
          if fl.showSymlinks = false then scanLoop fl maxLevel level rest cur1 st
          else if rOk = false then
            scanLoop fl maxLevel level rest (cur1.dec_symlink_cnt 1) st
          else scanLoop fl maxLevel level rest cur1 st
      | EntryKind.file =>
          let cur1 := cur.inc_file_cnt 1
          if fl.showFiles = false then scanLoop fl maxLevel level rest cur1 st
          else if rOk = false then
            scanLoop fl maxLevel level rest (cur1.dec_file_cnt 1) st
          else scanLoop fl maxLevel level rest cur1 st
      | EntryKind.dir =>
          let cur1 := cur.inc_dir_cnt 1
          if rOk = false then
            scanLoop fl maxLevel level rest (cur1.dec_dir_cnt 1) st
          else if fl.showRecursive = true ∧ (maxLevel = 0 ∨ level < maxLevel) then
            let r := scan_path fl maxLevel (level + 1) lok cs st
            let errs1 :=
              if r.failed = true ∧ fl.showErrors = true then
                r.errs ++ [OutEvent.errErr (iterErrMsg name)]
              else r.errs
            let q := scanLoop fl maxLevel level rest cur1 r.st
            ⟨q.cur, q.st, r.visits ++ q.visits, errs1 ++ q.errs⟩
          else scanLoop fl maxLevel level rest cur1 st
      | EntryKind.special _ =>
          let cur1 := cur.inc_special_cnt 1
          if fl.showSpecial = false then scanLoop fl maxLevel level rest cur1 st
          else if rOk = false then
            scanLoop fl maxLevel level rest (cur1.dec_special_cnt 1) st
          else scanLoop fl maxLevel level rest cur1 st
termination_by l _ _ => (sizeOf l, 0)

end

/-- Embeds `scan_path_init` as the list of lines it causes on the two
standard streams: on a root listing failure an error report goes to
standard output unconditionally and no summary is printed; otherwise the
level-0 summary is printed, and the recursive summary too when recursion
is on. -/
def scan_path_init (fl : Flags) (maxLevel : Nat) (initPath : String)
    (listingOk : Bool) (cs : List FsTree) : List OutEvent :=
  let r := scan_path fl maxLevel 0 listingOk cs ⟨EntryCounter.new, EntryCounter.new⟩
  if r.failed = true then r.errs ++ [OutEvent.errOut (iterErrMsg initPath)]
  else
    r.errs ++ [OutEvent.listing "summary"] ++
      (if fl.showRecursive = true then [OutEvent.listing "full summary"] else [])

/-- Modelled from the spec: the levels of the directory frames reachable
from a listing when recursion is unlimited — every successfully rendered
directory entry contributes a frame one level deeper, and its own entries
only when its listing succeeds. Used to state claim C5. -/
def reachableLevels : List FsTree → Nat → List Nat
  | [], _ => []
  | FsTree.node _ m rOk lok cs :: rest, level =>
      (if classify m = EntryKind.dir ∧ rOk = true then
         (level + 1) :: (if lok = true then reachableLevels cs (level + 1) else [])
       else []) ++ reachableLevels rest level
  | _ :: rest, level => reachableLevels rest level
termination_by l _ => sizeOf l

/-- Modelled from the spec: the per-kind counts of the entries of one
listing whose metadata could be read, used to state claim C3. -/
def childKindCounts : List FsTree → EntryCounter
  | [] => EntryCounter.new
  | FsTree.node _ m _ _ _ :: rest =>
      let c := childKindCounts rest
      match classify m with
      | EntryKind.symlink => c.inc_symlink_cnt 1
      | EntryKind.file => c.inc_file_cnt 1
      | EntryKind.dir => c.inc_dir_cnt 1
      | EntryKind.special _ => c.inc_special_cnt 1
  | _ :: rest => childKindCounts rest

/-- Whether every readable entry of a listing whose kind is displayed under
the given flags would render successfully: in scan mode the presenter runs
for a symlink, regular file or special entry only when the matching display
flag is set, while a directory is always rendered, so only those entries
have a render outcome to constrain. -/
def shownRendersOk (fl : Flags) : List FsTree → Bool
  | [] => true
  | FsTree.node _ m rOk _ _ :: rest =>
      (match classify m with
       | EntryKind.symlink => !fl.showSymlinks || rOk
       | EntryKind.file => !fl.showFiles || rOk
       | EntryKind.dir => rOk
       | EntryKind.special _ => !fl.showSpecial || rOk) &&
        shownRendersOk fl rest
  | _ :: rest => shownRendersOk fl rest

/-- Flags with only the show-symlinks option set. -/
def flagsShowSym : Flags := { Flags.allOff with showSymlinks := true }

/-- Flags with only the show-errors option set (`-e`). -/
def flagsErrOn : Flags := { Flags.allOff with showErrors := true }

/-- Embeds `Path::file_stem` on a plain file name: the whole name when it
contains no dot or when its only dot is the leading character, otherwise
the part before the last dot. -/
def fileStem (s : String) : String :=
  let cs := s.toList
  match cs.reverse.findIdx? (fun c => c == '.') with
  | none => s
  | some k =>
      let idx := cs.length - 1 - k
      if idx = 0 then s else String.mk (cs.take idx)

/-- Embeds the `matches` computation of `search_path`: name without
extension compared for equality in `SearchNoext` mode, full name compared
for equality in `SearchExact` mode, substring containment otherwise. -/
def entryMatchesB (fl : Flags) (name pat : String) : Bool :=
  if fl.searchNoext then fileStem name == pat
  else if fl.searchExact then name == pat
  else decide (List.IsInfix pat.toList name.toList)

/-- The two accumulators threaded through `search_path`:
`p_entry_cnts_match` and `p_entry_cnts_full`. -/
structure SearchSt where
  matched : EntryCounter
  full : EntryCounter
deriving DecidableEq, Repr

/-- Result of the entry loop of `search_path`: the per-directory traversal
counter, the updated accumulators, the error lines written to standard
error, and the log of entries whose render was attempted (kind and name). -/
structure SLoopOut where
  cur : EntryCounter
  st : SearchSt
  errs : List OutEvent
  rends : List (EntryKind × String)
deriving DecidableEq, Repr

/-- Result of one `search_path` frame. -/
structure SearchOut where
  st : SearchSt
  failed : Bool
  errs : List OutEvent
  rends : List (EntryKind × String)
deriving DecidableEq, Repr

mutual

/-- Embeds `search_path` on a directory whose `fs::read_dir` outcome is
`listingOk` with entries `cs`: on listing failure the error is returned to
the caller untouched; otherwise the entry loop runs, and the per-directory
counter is merged into the full (traversal) accumulator. -/
def search_path (fl : Flags) (pat : String) (maxLevel level : Nat)
    (listingOk : Bool) (cs : List FsTree) (st : SearchSt) : SearchOut :=
  if listingOk then
    let r := searchLoop fl pat maxLevel level cs EntryCounter.new st
    ⟨{ r.st with full := r.st.full.addCounts r.cur }, false, r.errs, r.rends⟩
  else ⟨st, true, [], []⟩
termination_by (sizeOf cs, 1)

/-- Embeds the entry loop of `search_path`: for symlinks, files and
special entries the display-flag check comes first, then the match check —
either failing counts the entry as traversed without rendering; a matching
shown entry is rendered and counted (traversed and matched) only when the
render succeeds. Directories consult no display flag: a matching directory
is rendered, and recursion into the directory happens whenever recursion
is enabled and the depth limit allows, independent of match or render. -/
def searchLoop (fl : Flags) (pat : String) (maxLevel level : Nat) :
    List FsTree → EntryCounter → SearchSt → SLoopOut
  | [], cur, st => ⟨cur, st, [], []⟩
  | FsTree.entryErr :: rest, cur, st => searchLoop fl pat maxLevel level rest cur st
  | FsTree.metaErr :: rest, cur, st => searchLoop fl pat maxLevel level rest cur st
  | FsTree.node name m rOk lok cs :: rest, cur, st =>
      let mt := entryMatchesB fl name pat
      match classify m with
      | EntryKind.symlink =>
          if fl.showSymlinks = false then
            searchLoop fl pat maxLevel level rest (cur.inc_symlink_cnt 1) st
          else if mt = false then
            searchLoop fl pat maxLevel level rest (cur.inc_symlink_cnt 1) st
          else
            let q :=
              if rOk = false then searchLoop fl pat maxLevel level rest cur st
              else searchLoop fl pat maxLevel level rest (cur.inc_symlink_cnt 1)
                { st with matched := st.matched.inc_symlink_cnt 1 }
            ⟨q.cur, q.st, q.errs, (EntryKind.symlink, name) :: q.rends⟩
      | EntryKind.file =>
          if fl.showFiles = false then
            searchLoop fl pat maxLevel level rest (cur.inc_file_cnt 1) st
          else if mt = false then
            searchLoop fl pat maxLevel level rest (cur.inc_file_cnt 1) st
          else
            let q :=
              if rOk = false then searchLoop fl pat maxLevel level rest cur st
              else searchLoop fl pat maxLevel level rest (cur.inc_file_cnt 1)
                { st with matched := st.matched.inc_file_cnt 1 }
            ⟨q.cur, q.st, q.errs, (EntryKind.file, name) :: q.rends⟩
      | EntryKind.dir =>
          let cur2 :=
            if mt = false then cur.inc_dir_cnt 1
            else if rOk = false then cur
            else cur.inc_dir_cnt 1
          let st2 :=
            if mt = false then st
            else if rOk = false then st
            else { st with matched := st.matched.inc_dir_cnt 1 }
          let rends2 : List (EntryKind × String) :=
            if mt = false then [] else [(EntryKind.dir, name)]
          if fl.showRecursive = true ∧ (maxLevel = 0 ∨ level < maxLevel) then
            let r := search_path fl pat maxLevel (level + 1) lok cs st2
            let errs1 :=
              if r.failed = true ∧ fl.showErrors = true then
                r.errs ++ [OutEvent.errErr (iterErrMsg name)]
              else r.errs
            let q := searchLoop fl pat maxLevel level rest cur2 r.st
            ⟨q.cur, q.st, errs1 ++ q.errs, rends2 ++ (r.rends ++ q.rends)⟩
          else
            let q := searchLoop fl pat maxLevel level rest cur2 st2
            ⟨q.cur, q.st, q.errs, rends2 ++ q.rends⟩
      | EntryKind.special _ =>
          if fl.showSpecial = false then
            searchLoop fl pat maxLevel level rest (cur.inc_special_cnt 1) st
          else if mt = false then
            searchLoop fl pat maxLevel level rest (cur.inc_special_cnt 1) st
          else
            let q :=
              if rOk = false then searchLoop fl pat maxLevel level rest cur st
              else searchLoop fl pat maxLevel level rest (cur.inc_special_cnt 1)
                { st with matched := st.matched.inc_special_cnt 1 }
            ⟨q.cur, q.st, q.errs, (EntryKind.special (specialFileType m), name) :: q.rends⟩
termination_by l _ _ => (sizeOf l, 0)

end

/-- Embeds `search_path_init` as the list of lines it causes on the two
standard streams: a root listing failure is reported on standard error and
only when error display is on, and suppresses the summaries; otherwise the
matching and traversal summaries are printed. -/
def search_path_init (fl : Flags) (pat : String) (maxLevel : Nat)
    (initPath : String) (listingOk : Bool) (cs : List FsTree) :
    List OutEvent :=
  let r := search_path fl pat maxLevel 0 listingOk cs
    ⟨EntryCounter.new, EntryCounter.new⟩
  if r.failed = true then
    if fl.showErrors = true then r.errs ++ [OutEvent.errErr (iterErrMsg initPath)]
    else r.errs
  else
    r.errs ++ [OutEvent.listing "matches summary",
      OutEvent.listing "traversal summary"]

/-- Flags with only the exact search mode set (`-S`). -/
def flagsSearchExact : Flags := { Flags.allOff with searchExact := true }

/-- Flags with only the stem-exact search mode set (`--search-noext`). -/
def flagsSearchNoext : Flags := { Flags.allOff with searchNoext := true }

/-- Flags with only the substring search mode set (`--contains`). -/
def flagsSearchContains : Flags := { Flags.allOff with searchContains := true }

/-- Maximum length of the provided root path (`MAX_PATH_LEN`). -/
def MAX_PATH_LEN : Nat := 256

/-- One of the three mutually exclusive search modes of the CLI. -/
inductive SearchMode where
  | exact
  | noext
  | contains
deriving DecidableEq, Repr

/-- The search mode a command-line token selects, if any. -/
def modeOf (a : String) : Option SearchMode :=
  if a = "-S" ∨ a = "--search" then some SearchMode.exact
  else if a = "--search-noext" then some SearchMode.noext
  else if a = "--contains" then some SearchMode.contains
  else none

/-- The option bit corresponding to a search mode. -/
def Flags.modeBit (fl : Flags) : SearchMode → Bool
  | SearchMode.exact => fl.searchExact
  | SearchMode.noext => fl.searchNoext
  | SearchMode.contains => fl.searchContains

/-- The mutable state of the argument loop of `main`: the option mask, the
root path, the search pattern, the two pending-argument markers, the depth
limit, and the warnings printed to standard output so far. -/
structure ParseState where
  flags : Flags
  initPath : String
  searchPat : String
  specifyRecurDepth : Bool
  specifySearchPath : Bool
  maxRecurLevel : Nat
  warnings : List String
deriving DecidableEq, Repr

/-- The state before the first argument is processed. -/
def initParseState : ParseState :=
  ⟨Flags.allOff, ".", "", false, false, 0, []⟩

/-- Outcome of processing one argument. -/
inductive StepResult where
  | exit (code : Int)
  | panicked
  | cont (st : ParseState)
deriving DecidableEq, Repr

/-- Outcome of the whole argument loop. -/
inductive ParseResult where
  | exit (code : Int)
  | panicked
  | done (st : ParseState)
deriving DecidableEq, Repr

/-- Warning printed when `-r` is followed by a non-positive depth. -/
def depthWarn : String := "Maximum recursion depth must be greater than 0"

/-- Warning printed when `-r` is followed by a non-numeric argument. -/
def convWarn : String := "Could not convert to an integer"

/-- Warning printed for an unrecognised option token. -/
def unknownWarn (a : String) : String := "Ignoring unknown option " ++ a

/-- Clears both pending-argument markers (done for every dash argument). -/
def ParseState.resetMarks (st : ParseState) : ParseState :=
  { st with specifyRecurDepth := false, specifySearchPath := false }

/-- Sets the help option. -/
def ParseState.withHelp (st : ParseState) : ParseState :=
  { st with flags := { st.flags with help := true } }

/-- Sets the show-errors option. -/
def ParseState.withShowErr (st : ParseState) : ParseState :=
  { st with flags := { st.flags with showErrors := true } }

/-- Sets the recursive option and marks that a depth argument may follow. -/
def ParseState.withRecur (st : ParseState) : ParseState :=
  { st with
    flags := { st.flags with showRecursive := true },
    specifyRecurDepth := true }

/-- Sets the show-files option. -/
def ParseState.withFiles (st : ParseState) : ParseState :=
  { st with flags := { st.flags with showFiles := true } }

/-- Sets the show-symlinks option. -/
def ParseState.withSymlinks (st : ParseState) : ParseState :=
  { st with flags := { st.flags with showSymlinks := true } }

/-- Sets the show-special option. -/
def ParseState.withSpecial (st : ParseState) : ParseState :=
  { st with flags := { st.flags with showSpecial := true } }

/-- Sets the directory-size option. -/
def ParseState.withDirSize (st : ParseState) : ParseState :=
  { st with flags := { st.flags with showDirSize := true } }

/-- Sets the absolute-path option. -/
def ParseState.withAbs (st : ParseState) : ParseState :=
  { st with flags := { st.flags with showAbsnoindent := true } }

/-- Sets the show-permissions option. -/
def ParseState.withPerms (st : ParseState) : ParseState :=
  { st with flags := { st.flags with showPermissions := true } }

/-- Sets the modification-time option. -/
def ParseState.withTime (st : ParseState) : ParseState :=
  { st with flags := { st.flags with showLasttime := true } }

/-- Sets the exact search mode and marks that a pattern follows. -/
def ParseState.withExact (st : ParseState) : ParseState :=
  { st with
    specifySearchPath := true,
    flags := { st.flags with searchExact := true } }

/-- Sets the stem-exact search mode and marks that a pattern follows. -/
def ParseState.withNoext (st : ParseState) : ParseState :=
  { st with
    specifySearchPath := true,
    flags := { st.flags with searchNoext := true } }

/-- Sets the substring search mode and marks that a pattern follows. -/
def ParseState.withContains (st : ParseState) : ParseState :=
  { st with
    specifySearchPath := true,
    flags := { st.flags with searchContains := true } }

/-- Appends a warning line (printed to standard output). -/
def ParseState.withWarn (st : ParseState) (w : String) : ParseState :=
  { st with warnings := st.warnings ++ [w] }

/-- Records a parsed recursion depth. -/
def ParseState.setDepth (st : ParseState) (d : Nat) : ParseState :=
  { st with maxRecurLevel := d }

/-- Clears the recursive option (non-positive or non-numeric depth). -/
def ParseState.noRecur (st : ParseState) : ParseState :=
  { st with flags := { st.flags with showRecursive := false } }

/-- Clears the pending-depth marker. -/
def ParseState.clearRecurMark (st : ParseState) : ParseState :=
  { st with specifyRecurDepth := false }

/-- Records the search pattern. -/
def ParseState.withPat (st : ParseState) (p : String) : ParseState :=
  { st with searchPat := p }

/-- Records the root path, truncated to `MAX_PATH_LEN` characters. -/
def ParseState.withInit (st : ParseState) (p : String) : ParseState :=
  { st with initPath :=
    if p.length > MAX_PATH_LEN then String.mk (p.toList.take MAX_PATH_LEN)
    else p }

/-- Models `str::parse::<u64>` as the source uses it for the recursion
depth: all-digit strings parse to their value, anything else fails. -/
def parseNat? (s : String) : Option Nat :=
  let cs := s.toList
  if cs.isEmpty then none
  else if cs.all (fun c => c.isDigit) then
    some (cs.foldl (fun acc c => acc * 10 + (c.toNat - Char.toNat '0')) 0)
  else none

/-- Embeds the flag table of the argument loop of `main` for a dash
argument (both pending-argument markers already cleared): the option
chain, where the three search flags terminate the process with code -1 on
a mode conflict or a missing following pattern argument. -/
def parseDash (st : ParseState) (arg : String) (isLast : Bool) : StepResult :=
  if arg = "-h" ∨ arg = "--help" then StepResult.cont st.withHelp
  else if arg = "-e" ∨ arg = "--show-err" then StepResult.cont st.withShowErr
  else if arg = "-r" ∨ arg = "--recursive" then StepResult.cont st.withRecur
  else if arg = "-f" ∨ arg = "--files" then StepResult.cont st.withFiles
  else if arg = "-l" ∨ arg = "--symlinks" then StepResult.cont st.withSymlinks
  else if arg = "-s" ∨ arg = "--special" then StepResult.cont st.withSpecial
  else if arg = "-d" ∨ arg = "--dir-size" then StepResult.cont st.withDirSize
  else if arg = "-a" ∨ arg = "--abs" then StepResult.cont st.withAbs
  else if arg = "-S" ∨ arg = "--search" then
    if st.flags.searchNoext = true ∨ st.flags.searchContains = true then
      StepResult.exit (-1)
    else if isLast = true then StepResult.exit (-1)
    else StepResult.cont st.withExact
  else if arg = "--search-noext" then
    if st.flags.searchExact = true ∨ st.flags.searchContains = true then
      StepResult.exit (-1)
    else if isLast = true then StepResult.exit (-1)
    else StepResult.cont st.withNoext
  else if arg = "--contains" then
    if st.flags.searchNoext = true ∨ st.flags.searchExact = true then
      StepResult.exit (-1)
    else if isLast = true then StepResult.exit (-1)
    else StepResult.cont st.withContains
  else if arg = "-p" ∨ arg = "--permissions" then StepResult.cont st.withPerms
  else if arg = "-t" ∨ arg = "--modification-time" then StepResult.cont st.withTime
  else StepResult.cont (st.withWarn (unknownWarn arg))

/-- Embeds one iteration of the argument loop of `main` on argument `arg`,
`isLast` saying whether it is the final argument (the source's
`env::args().len() <= i + 1` check). A zero-length argument makes the
source panic on `chars().nth(0).unwrap()`. A non-dash argument is consumed
as recursion depth (a non-positive or non-numeric value disabling
recursion with a warning), as search pattern, or as root path; a dash
argument clears both pending markers and goes to the flag table. -/
def parseStep (st : ParseState) (arg : String) (isLast : Bool) : StepResult :=
  if arg.length = 0 then StepResult.panicked
  else if arg.toList.head? ≠ some '-' then
    if st.specifyRecurDepth = true then
      match parseNat? arg with
      | some depth =>
          if depth ≤ 0 then
            StepResult.cont
              (((st.clearRecurMark.setDepth depth).noRecur).withWarn depthWarn)
          else StepResult.cont (st.clearRecurMark.setDepth depth)
      | none =>
          StepResult.cont ((st.clearRecurMark.noRecur).withWarn convWarn)
    else if st.specifySearchPath = true then
      StepResult.cont (st.withPat arg)
    else
      StepResult.cont (st.withInit arg)
  else
    parseDash st.resetMarks arg isLast

/-- Embeds the argument loop of `main` over the argument list (without the
program name): a `process::exit` or panic inside an iteration ends the
run, otherwise the final state is reached. -/
def parseLoop (st : ParseState) : List String → ParseResult
  | [] => ParseResult.done st
  | a :: rest =>
      match parseStep st a rest.isEmpty with
      | StepResult.exit c => ParseResult.exit c
      | StepResult.panicked => ParseResult.panicked
      | StepResult.cont st' => parseLoop st' rest

/-- Argument parsing from the initial state. -/
def parseArgs (args : List String) : ParseResult :=
  parseLoop initParseState args

/-- Whether `main` reaches a traversal call for this command line: only
when argument parsing completes and the help option was not set. -/
def traversalReached (args : List String) : Bool :=
  match parseArgs args with
  | ParseResult.done st => !st.flags.help
  | _ => false

/-- Whether recursion is still enabled once the command line is parsed. -/
def recursionEnabledAfter (args : List String) : Bool :=
  match parseArgs args with
  | ParseResult.done st => st.flags.showRecursive
  | _ => false

/-- The recursion depth limit once the command line is parsed. -/
def maxLevelAfter (args : List String) : Option Nat :=
  match parseArgs args with
  | ParseResult.done st => some st.maxRecurLevel
  | _ => none

/-- The warnings printed to standard output during parsing. -/
def warningsAfter (args : List String) : List String :=
  match parseArgs args with
  | ParseResult.done st => st.warnings
  | _ => []

/-- Joint characterisation of when the size computation fails: exactly when
the spec-side failure predicate holds. Proved by the mutual functional
induction of `calc_dir_size` and `calcLoop`. -/
theorem calc_dir_size_none_iff_fails :
    (∀ (lok : Bool) (cs : List FsTree),
        (calc_dir_size lok cs = none ↔ sizeFailsDir lok cs = true)) ∧
    ∀ l : List FsTree, (calcLoop l = none ↔ sizeFailsList l = true) := by
  refine calc_dir_size.mutual_induct
    (fun lok cs => (calc_dir_size lok cs = none ↔ sizeFailsDir lok cs = true))
    (fun l => (calcLoop l = none ↔ sizeFailsList l = true))
    ?_ ?_ ?_ ?_ ?_ ?_ ?_ ?_ ?_ ?_
  · intro cs h
    simpa [calc_dir_size, sizeFailsDir] using h
  · intro lok cs h
    simp only [Bool.not_eq_true] at h
    subst h
    simp [calc_dir_size, sizeFailsDir]
  · simp [calcLoop, sizeFailsList]
  · intro rest h
    simpa [calcLoop, sizeFailsList] using h
  · intro tail
    simp [calcLoop, sizeFailsList]
  · intro name m rOk lok cs rest hsym h
    simpa [calcLoop, sizeFailsList, hsym] using h
  · intro name m rOk lok cs rest hsym hfile h
    simp only [Bool.not_eq_true] at hsym
    simpa [calcLoop, sizeFailsList, hsym, hfile, Option.map_eq_none'] using h
  · intro name m rOk lok cs rest hsym hfile hdir hnone ih1
    simp only [Bool.not_eq_true] at hsym hfile
    simp [calcLoop, sizeFailsList, hsym, hfile, hdir, hnone, ih1.mp hnone]
  · intro name m rOk lok cs rest hsym hfile hdir d hsome ih1 ih2
    simp only [Bool.not_eq_true] at hsym hfile
    have hnf : sizeFailsDir lok cs = false := by
      rcases Bool.eq_false_or_eq_true (sizeFailsDir lok cs) with h | h
      · exact absurd (ih1.mpr h) (by simp [hsome])
      · exact h
    simpa [calcLoop, sizeFailsList, hsym, hfile, hdir, hsome, hnf,
      Option.map_eq_none'] using ih2
  · intro name m rOk lok cs rest hsym hfile hdir h
    simp only [Bool.not_eq_true] at hsym hfile hdir
    simpa [calcLoop, sizeFailsList, hsym, hfile, hdir] using h

/-- Counterexample to claim C1 as stated: a directory whose single child's
metadata cannot be read. The claim says the computation returns the same
result as if that child did not exist, but the code returns `None` for the
directory with the child and `Some 0` without it, although no directory
listing failed anywhere. -/
theorem C1_counterexample :
    calc_dir_size true [FsTree.metaErr] ≠ calc_dir_size true [] ∧
    calc_dir_size true [FsTree.metaErr] = none := by
  constructor
  · simp [calc_dir_size, calcLoop]
  · simp [calc_dir_size, calcLoop]

/-- C1 (amended): in `calc_dir_size`, a child whose directory entry itself
cannot be read is silently skipped (the result is the same as if that child
did not exist), but a child whose metadata cannot be read makes the
computation fail; overall the computation returns `None` exactly when a
directory listing (top-level or nested, reached through non-symlink
directories) fails or such a metadata read fails. -/
theorem C1_calc_dir_size_error_policy
    (rest : List FsTree) (lok : Bool) (cs : List FsTree) :
    calcLoop (FsTree.entryErr :: rest) = calcLoop rest ∧
    calcLoop (FsTree.metaErr :: rest) = none ∧
    (calc_dir_size lok cs = none ↔ sizeFailsDir lok cs = true) := by
  refine ⟨by simp [calcLoop], by simp [calcLoop], ?_⟩
  exact calc_dir_size_none_iff_fails.1 lok cs

/-- C4: classification checks the symlink property first, so a symlink is
classified as a symlink regardless of its target; on any metadata whose
directory bit does not coexist with a special subtype (as guaranteed by the
platform's exclusive file-type bits), the code's branch chain agrees with
the spec's stated order symlink, special, regular file, directory, with
fall-through to `Special(NA)`. -/
theorem C4_classification_order (m : Metadata)
    (h : m.is_dir = true → specialFileType m = SpecialFileType.NA) :
    classify m = classifySpecOrder m ∧
    (m.is_symlink = true → classify m = EntryKind.symlink) := by
  constructor
  · unfold classify classifySpecOrder
    split_ifs <;> simp_all
  · intro hs
    simp [classify, hs]

/-- Witness for C4 at concrete metadata: a symlink whose target is a
directory is classified as a symlink, and classification agrees with the
spec order there. -/
theorem C4_classification_order_witness :
    classify ⟨true, false, true, false, false, false, false, 0⟩ =
        classifySpecOrder ⟨true, false, true, false, false, false, false, 0⟩ ∧
      (Metadata.is_symlink ⟨true, false, true, false, false, false, false, 0⟩ = true →
        classify ⟨true, false, true, false, false, false, false, 0⟩ =
          EntryKind.symlink) :=
  C4_classification_order ⟨true, false, true, false, false, false, false, 0⟩
    (by decide)

/-- Undoing a tentative symlink-count increment restores the counter. -/
theorem EntryCounter.inc_dec_symlink_cancel (c : EntryCounter) (n : Nat) :
    (c.inc_symlink_cnt n).dec_symlink_cnt n = c := by
  cases c
  simp [EntryCounter.inc_symlink_cnt, EntryCounter.dec_symlink_cnt]

/-- Undoing a tentative file-count increment restores the counter. -/
theorem EntryCounter.inc_dec_file_cancel (c : EntryCounter) (n : Nat) :
    (c.inc_file_cnt n).dec_file_cnt n = c := by
  cases c
  simp [EntryCounter.inc_file_cnt, EntryCounter.dec_file_cnt]

/-- Undoing a tentative directory-count increment restores the counter. -/
theorem EntryCounter.inc_dec_dir_cancel (c : EntryCounter) (n : Nat) :
    (c.inc_dir_cnt n).dec_dir_cnt n = c := by
  cases c
  simp [EntryCounter.inc_dir_cnt, EntryCounter.dec_dir_cnt]

/-- Undoing a tentative special-count increment restores the counter. -/
theorem EntryCounter.inc_dec_special_cancel (c : EntryCounter) (n : Nat) :
    (c.inc_special_cnt n).dec_special_cnt n = c := by
  cases c
  simp [EntryCounter.inc_special_cnt, EntryCounter.dec_special_cnt]

/-- Merging a zeroed counter changes nothing. -/
theorem EntryCounter.addCounts_new_right (c : EntryCounter) :
    c.addCounts EntryCounter.new = c := by
  cases c
  simp [EntryCounter.addCounts, EntryCounter.new, EntryCounter.inc_symlink_cnt,
    EntryCounter.inc_file_cnt, EntryCounter.inc_dir_cnt,
    EntryCounter.inc_special_cnt, EntryCounter.get_symlink_cnt,
    EntryCounter.get_file_cnt, EntryCounter.get_dir_cnt,
    EntryCounter.get_special_cnt]

/-- Merging into a zeroed counter yields the merged counter. -/
theorem EntryCounter.addCounts_new_left (c : EntryCounter) :
    EntryCounter.new.addCounts c = c := by
  cases c
  simp [EntryCounter.addCounts, EntryCounter.new, EntryCounter.inc_symlink_cnt,
    EntryCounter.inc_file_cnt, EntryCounter.inc_dir_cnt,
    EntryCounter.inc_special_cnt, EntryCounter.get_symlink_cnt,
    EntryCounter.get_file_cnt, EntryCounter.get_dir_cnt,
    EntryCounter.get_special_cnt]

/-- An increment on the left argument of a merge can be moved to the right
argument (symlink count). -/
theorem EntryCounter.addCounts_inc_symlink (cur c : EntryCounter) (n : Nat) :
    (cur.inc_symlink_cnt n).addCounts c = cur.addCounts (c.inc_symlink_cnt n) := by
  cases cur
  cases c
  simp [EntryCounter.addCounts, EntryCounter.inc_symlink_cnt,
    EntryCounter.inc_file_cnt, EntryCounter.inc_dir_cnt,
    EntryCounter.inc_special_cnt, EntryCounter.get_symlink_cnt,
    EntryCounter.get_file_cnt, EntryCounter.get_dir_cnt,
    EntryCounter.get_special_cnt]
  omega

/-- An increment on the left argument of a merge can be moved to the right
argument (file count). -/
theorem EntryCounter.addCounts_inc_file (cur c : EntryCounter) (n : Nat) :
    (cur.inc_file_cnt n).addCounts c = cur.addCounts (c.inc_file_cnt n) := by
  cases cur
  cases c
  simp [EntryCounter.addCounts, EntryCounter.inc_symlink_cnt,
    EntryCounter.inc_file_cnt, EntryCounter.inc_dir_cnt,
    EntryCounter.inc_special_cnt, EntryCounter.get_symlink_cnt,
    EntryCounter.get_file_cnt, EntryCounter.get_dir_cnt,
    EntryCounter.get_special_cnt]
  omega

/-- An increment on the left argument of a merge can be moved to the right
argument (directory count). -/
theorem EntryCounter.addCounts_inc_dir (cur c : EntryCounter) (n : Nat) :
    (cur.inc_dir_cnt n).addCounts c = cur.addCounts (c.inc_dir_cnt n) := by
  cases cur
  cases c
  simp [EntryCounter.addCounts, EntryCounter.inc_symlink_cnt,
    EntryCounter.inc_file_cnt, EntryCounter.inc_dir_cnt,
    EntryCounter.inc_special_cnt, EntryCounter.get_symlink_cnt,
    EntryCounter.get_file_cnt, EntryCounter.get_dir_cnt,
    EntryCounter.get_special_cnt]
  omega

/-- An increment on the left argument of a merge can be moved to the right
argument (special count). -/
theorem EntryCounter.addCounts_inc_special (cur c : EntryCounter) (n : Nat) :
    (cur.inc_special_cnt n).addCounts c = cur.addCounts (c.inc_special_cnt n) := by
  cases cur
  cases c
  simp [EntryCounter.addCounts, EntryCounter.inc_symlink_cnt,
    EntryCounter.inc_file_cnt, EntryCounter.inc_dir_cnt,
    EntryCounter.inc_special_cnt, EntryCounter.get_symlink_cnt,
    EntryCounter.get_file_cnt, EntryCounter.get_dir_cnt,
    EntryCounter.get_special_cnt]
  omega

/-- C2: in scan mode, an entry whose render is attempted (its kind is
displayed; directories always are) and fails contributes nothing: the loop
continues exactly as if the entry had never been seen, so the per-level
counter, the aggregate summary lines derived from it, and the merged
cumulative counters are all unchanged by that entry. -/
theorem C2_render_failure_rollback (fl : Flags) (maxLevel level : Nat)
    (name : String) (m : Metadata) (lok : Bool) (cs rest : List FsTree)
    (cur : EntryCounter) (st : ScanSt)
    (hsym : classify m = EntryKind.symlink → fl.showSymlinks = true)
    (hfile : classify m = EntryKind.file → fl.showFiles = true)
    (hspec : ∀ t, classify m = EntryKind.special t → fl.showSpecial = true) :
    scanLoop fl maxLevel level (FsTree.node name m false lok cs :: rest) cur st =
      scanLoop fl maxLevel level rest cur st := by
  rcases hk : classify m with _ | _ | _ | t
  · have h := hsym hk
    simp [scanLoop, hk, h, EntryCounter.inc_dec_symlink_cancel]
  · have h := hfile hk
    simp [scanLoop, hk, h, EntryCounter.inc_dec_file_cancel]
  · simp [scanLoop, hk, EntryCounter.inc_dec_dir_cancel]
  · have h := hspec t hk
    simp [scanLoop, hk, h, EntryCounter.inc_dec_special_cancel]

/-- Witness for C2: a dangling symlink (render fails) with symlink display
enabled leaves the loop state exactly as if the entry were absent. -/
theorem C2_render_failure_rollback_witness :
    scanLoop flagsShowSym 0 0
        [FsTree.node "s" ⟨true, false, false, false, false, false, false, 0⟩
          false true []]
        EntryCounter.new ⟨EntryCounter.new, EntryCounter.new⟩ =
      scanLoop flagsShowSym 0 0 [] EntryCounter.new
        ⟨EntryCounter.new, EntryCounter.new⟩ :=
  C2_render_failure_rollback flagsShowSym 0 0 "s"
    ⟨true, false, false, false, false, false, false, 0⟩ true [] []
    EntryCounter.new ⟨EntryCounter.new, EntryCounter.new⟩
    (fun _ => rfl)
    (fun h => by simp [classify] at h)
    (fun t h => by simp [classify] at h)

/-- The `p_entry_cnts_init` accumulator is written only by the level-0
frame: every deeper frame and every loop leaves it unchanged. -/
theorem scan_init_preserved (fl : Flags) (maxLevel : Nat) :
    (∀ (level : Nat) (lok : Bool) (cs : List FsTree) (st : ScanSt),
        level ≠ 0 →
          (scan_path fl maxLevel level lok cs st).st.init = st.init) ∧
    ∀ (level : Nat) (l : List FsTree) (cur : EntryCounter) (st : ScanSt),
        (scanLoop fl maxLevel level l cur st).st.init = st.init := by
  refine scan_path.mutual_induct fl maxLevel
    (fun level lok cs st => level ≠ 0 →
      (scan_path fl maxLevel level lok cs st).st.init = st.init)
    (fun level l cur st =>
      (scanLoop fl maxLevel level l cur st).st.init = st.init)
    ?_ ?_ ?_ ?_ ?_ ?_ ?_ ?_ ?_ ?_ ?_ ?_ ?_ ?_ ?_ ?_ ?_
  · intro level cs st ih hlv
    simp [scan_path, mergeScan, hlv, ih]
  · intro level lok cs st hlok _
    simp only [Bool.not_eq_true] at hlok
    simp [scan_path, hlok]
  · intro level cur st
    simp [scanLoop]
  · intro level rest cur st ih
    simpa [scanLoop] using ih
  · intro level rest cur st ih
    simpa [scanLoop] using ih
  · intro level name m rOk lok cs rest cur st hk cur1 hshow ih
    simpa [scanLoop, hk, hshow] using ih
  · intro level name m lok cs rest cur st hk cur1 hshow ih
    simpa [scanLoop, hk, hshow] using ih
  · intro level name m rOk lok cs rest cur st hk cur1 hshow hrok ih
    simpa [scanLoop, hk, hshow, hrok] using ih
  · intro level name m rOk lok cs rest cur st hk cur1 hshow ih
    simpa [scanLoop, hk, hshow] using ih
  · intro level name m lok cs rest cur st hk cur1 hshow ih
    simpa [scanLoop, hk, hshow] using ih
  · intro level name m rOk lok cs rest cur st hk cur1 hshow hrok ih
    simpa [scanLoop, hk, hshow, hrok] using ih
  · intro level name m lok cs rest cur st hk cur1 ih
    simpa [scanLoop, hk] using ih
  · intro level name m rOk lok cs rest cur st hk cur1 hrok hrec r ih1 ih2
    have h1 := ih1 (Nat.succ_ne_zero level)
    simp only [Bool.not_eq_false] at hrok
    simp [scanLoop, hk, hrok, hrec]
    exact ih2.trans h1
  · intro level name m rOk lok cs rest cur st hk cur1 hrok hrec ih
    simp only [Bool.not_eq_false] at hrok
    simpa [scanLoop, hk, hrok, hrec] using ih
  · intro level name m rOk lok cs rest cur st a hk cur1 hshow ih
    simpa [scanLoop, hk, hshow] using ih
  · intro level name m lok cs rest cur st a hk cur1 hshow ih
    simpa [scanLoop, hk, hshow] using ih
  · intro level name m rOk lok cs rest cur st a hk cur1 hshow hrok ih
    simpa [scanLoop, hk, hshow, hrok] using ih

/-- When every displayed readable entry of a listing renders successfully
(hidden entries are unconstrained, since their render is never attempted),
the entry loop adds exactly the per-kind counts of the readable entries to
the per-directory counter. -/
theorem scanLoop_cur_renders_ok (fl : Flags) (maxLevel level : Nat)
    (l : List FsTree) :
    ∀ (cur : EntryCounter) (st : ScanSt), shownRendersOk fl l = true →
      (scanLoop fl maxLevel level l cur st).cur =
        cur.addCounts (childKindCounts l) := by
  induction l with
  | nil =>
    intro cur st _
    simp [scanLoop, childKindCounts, EntryCounter.addCounts_new_right]
  | cons t rest ih =>
    intro cur st h
    cases t with
    | entryErr =>
      simp only [shownRendersOk] at h
      simp [scanLoop, childKindCounts, ih cur st h]
    | metaErr =>
      simp only [shownRendersOk] at h
      simp [scanLoop, childKindCounts, ih cur st h]
    | node name m rOk lok cs =>
      rcases hk : classify m with _ | _ | _ | tt
      all_goals simp only [shownRendersOk, hk, Bool.and_eq_true] at h
      all_goals obtain ⟨hc, hrest⟩ := h
      · by_cases hf : fl.showSymlinks = false
        · simp [scanLoop, hk, hf, childKindCounts, ih _ _ hrest,
            EntryCounter.addCounts_inc_symlink]
        · have hs : fl.showSymlinks = true := by simpa using hf
          have hr : rOk = true := by simpa [hs] using hc
          simp [scanLoop, hk, hf, hr, childKindCounts, ih _ _ hrest,
            EntryCounter.addCounts_inc_symlink]
      · by_cases hf : fl.showFiles = false
        · simp [scanLoop, hk, hf, childKindCounts, ih _ _ hrest,
            EntryCounter.addCounts_inc_file]
        · have hs : fl.showFiles = true := by simpa using hf
          have hr : rOk = true := by simpa [hs] using hc
          simp [scanLoop, hk, hf, hr, childKindCounts, ih _ _ hrest,
            EntryCounter.addCounts_inc_file]
      · by_cases hrec : fl.showRecursive = true ∧ (maxLevel = 0 ∨ level < maxLevel)
        · simp [scanLoop, hk, hc, hrec, childKindCounts, ih _ _ hrest,
            EntryCounter.addCounts_inc_dir]
        · simp [scanLoop, hk, hc, hrec, childKindCounts, ih _ _ hrest,
            EntryCounter.addCounts_inc_dir]
      · by_cases hf : fl.showSpecial = false
        · simp [scanLoop, hk, hf, childKindCounts, ih _ _ hrest,
            EntryCounter.addCounts_inc_special]
        · have hs : fl.showSpecial = true := by simpa using hf
          have hr : rOk = true := by simpa [hs] using hc
          simp [scanLoop, hk, hf, hr, childKindCounts, ih _ _ hrest,
            EntryCounter.addCounts_inc_special]

/-- Counterexample to claim C3 as stated: with symlink display on, a
dangling symlink (metadata readable, render fails) is rolled back, so the
level-0 merged counter no longer equals the per-kind count of readable
children. -/
theorem C3_counterexample :
    (scan_path flagsShowSym 0 0 true
        [FsTree.node "s" ⟨true, false, false, false, false, false, false, 0⟩
          false true []]
        ⟨EntryCounter.new, EntryCounter.new⟩).st.init ≠
      childKindCounts
        [FsTree.node "s" ⟨true, false, false, false, false, false, false, 0⟩
          false true []] := by
  have hcl : classify ⟨true, false, false, false, false, false, false, 0⟩ =
      EntryKind.symlink := by decide
  simp [scan_path, scanLoop, mergeScan, childKindCounts, hcl, flagsShowSym,
    Flags.allOff, EntryCounter.inc_dec_symlink_cancel,
    EntryCounter.addCounts_new_right, EntryCounter.new,
    EntryCounter.inc_symlink_cnt, EntryCounter.addCounts,
    EntryCounter.get_symlink_cnt, EntryCounter.get_file_cnt,
    EntryCounter.get_dir_cnt, EntryCounter.get_special_cnt,
    EntryCounter.inc_file_cnt, EntryCounter.inc_dir_cnt,
    EntryCounter.inc_special_cnt, EntryCounter.dec_symlink_cnt]

/-- C3 (amended): for every directory scanned at level 0 and every setting
of the display flags, provided every readable entry of its listing whose
kind is shown renders successfully (hidden entries may fail to render — the
presenter never runs on them), the counter merged at level 0 equals the
per-kind count of the immediate children whose metadata could be read —
each readable entry's kind counter is incremented before any visibility
decision, so hiding a kind never changes the counts. -/
theorem C3_unconditional_counting (fl : Flags) (maxLevel : Nat)
    (cs : List FsTree) (h : shownRendersOk fl cs = true) :
    (scan_path fl maxLevel 0 true cs
        ⟨EntryCounter.new, EntryCounter.new⟩).st.init = childKindCounts cs := by
  have hin := (scan_init_preserved fl maxLevel).2 0 cs EntryCounter.new
    ⟨EntryCounter.new, EntryCounter.new⟩
  have hc := scanLoop_cur_renders_ok fl maxLevel 0 cs EntryCounter.new
    ⟨EntryCounter.new, EntryCounter.new⟩ h
  simp [scan_path, mergeScan, hin, hc, EntryCounter.addCounts_new_left]

/-- Witness for C3: a listing with one regular file, one empty
subdirectory and one dangling symlink (metadata readable, render would
fail), with no display flags set — the hidden symlink's render failure is
irrelevant because its render is never attempted, and the level-0 counter
equals the per-kind child counts, symlink included. -/
theorem C3_unconditional_counting_witness :
    shownRendersOk Flags.allOff
        [FsTree.node "f" ⟨false, true, false, false, false, false, false, 3⟩
          true true [],
         FsTree.node "d" ⟨false, false, true, false, false, false, false, 0⟩
          true true [],
         FsTree.node "s" ⟨true, false, false, false, false, false, false, 0⟩
          false true []] = true ∧
    (scan_path Flags.allOff 0 0 true
        [FsTree.node "f" ⟨false, true, false, false, false, false, false, 3⟩
          true true [],
         FsTree.node "d" ⟨false, false, true, false, false, false, false, 0⟩
          true true [],
         FsTree.node "s" ⟨true, false, false, false, false, false, false, 0⟩
          false true []]
        ⟨EntryCounter.new, EntryCounter.new⟩).st.init =
      childKindCounts
        [FsTree.node "f" ⟨false, true, false, false, false, false, false, 3⟩
          true true [],
         FsTree.node "d" ⟨false, false, true, false, false, false, false, 0⟩
          true true [],
         FsTree.node "s" ⟨true, false, false, false, false, false, false, 0⟩
          false true []] :=
  ⟨by decide, C3_unconditional_counting Flags.allOff 0 _ (by decide)⟩

/-- Every reachable frame lies strictly below the listing's own level. -/
theorem reachableLevels_gt (l : List FsTree) (level : Nat) :
    ∀ x ∈ reachableLevels l level, level < x := by
  induction l, level using reachableLevels.induct with
  | case1 level => simp [reachableLevels]
  | case2 name m rOk lok cs rest level ih1 ih2 =>
    intro x hx
    simp only [reachableLevels, List.mem_append] at hx
    rcases hx with hx | hx
    · split at hx
      · simp only [List.mem_cons] at hx
        rcases hx with rfl | hx
        · omega
        · split at hx
          · have := ih1 x hx
            omega
          · simp at hx
      · simp at hx
    · exact ih2 x hx
  | case3 head rest level h ih =>
    intro x hx
    have hr : reachableLevels (head :: rest) level = reachableLevels rest level := by
      cases head with
      | entryErr => simp [reachableLevels]
      | metaErr => simp [reachableLevels]
      | node nm m rOk lok cs => exact absurd rfl (h nm m rOk lok cs)
    rw [hr] at hx
    exact ih x hx

/-- Joint characterisation of the frames a scan enters: with recursion on,
the visited levels are exactly the reachable frames, cut at the depth
limit when it is nonzero; with recursion off, the loop enters no frame. -/
theorem scan_visits_characterisation (fl : Flags) (N : Nat) :
    (∀ (level : Nat) (lok : Bool) (cs : List FsTree) (st : ScanSt),
        (scan_path fl N level lok cs st).visits =
          level :: (if lok = true ∧ fl.showRecursive = true then
            (if N = 0 then reachableLevels cs level
             else (reachableLevels cs level).filter (fun x => decide (x ≤ N)))
           else [])) ∧
    ∀ (level : Nat) (l : List FsTree) (cur : EntryCounter) (st : ScanSt),
        (scanLoop fl N level l cur st).visits =
          (if fl.showRecursive = true then
            (if N = 0 then reachableLevels l level
             else (reachableLevels l level).filter (fun x => decide (x ≤ N)))
           else []) := by
  refine scan_path.mutual_induct fl N
    (fun level lok cs st =>
      (scan_path fl N level lok cs st).visits =
        level :: (if lok = true ∧ fl.showRecursive = true then
          (if N = 0 then reachableLevels cs level
           else (reachableLevels cs level).filter (fun x => decide (x ≤ N)))
         else []))
    (fun level l cur st =>
      (scanLoop fl N level l cur st).visits =
        (if fl.showRecursive = true then
          (if N = 0 then reachableLevels l level
           else (reachableLevels l level).filter (fun x => decide (x ≤ N)))
         else [])) ?_ ?_ ?_ ?_ ?_ ?_ ?_ ?_ ?_ ?_ ?_ ?_ ?_ ?_ ?_ ?_ ?_
  · intro level cs st ih
    simp [scan_path, ih]
  · intro level lok cs st hlok
    simp only [Bool.not_eq_true] at hlok
    simp [scan_path, hlok]
  · intro level cur st
    simp [scanLoop, reachableLevels]
  · intro level rest cur st ih
    simpa [scanLoop, reachableLevels] using ih
  · intro level rest cur st ih
    simpa [scanLoop, reachableLevels] using ih
  · intro level name m rOk lok cs rest cur st hk cur1 hshow ih
    simpa [scanLoop, hk, hshow, reachableLevels] using ih
  · intro level name m lok cs rest cur st hk cur1 hshow ih
    simpa [scanLoop, hk, hshow, reachableLevels] using ih
  · intro level name m rOk lok cs rest cur st hk cur1 hshow hrok ih
    simpa [scanLoop, hk, hshow, hrok, reachableLevels] using ih
  · intro level name m rOk lok cs rest cur st hk cur1 hshow ih
    simpa [scanLoop, hk, hshow, reachableLevels] using ih
  · intro level name m lok cs rest cur st hk cur1 hshow ih
    simpa [scanLoop, hk, hshow, reachableLevels] using ih
  · intro level name m rOk lok cs rest cur st hk cur1 hshow hrok ih
    simpa [scanLoop, hk, hshow, hrok, reachableLevels] using ih
  · intro level name m lok cs rest cur st hk cur1 ih
    simpa [scanLoop, hk, reachableLevels] using ih
  · intro level name m rOk lok cs rest cur st hk cur1 hrok hrec r ih1 ih2
    simp only [Bool.not_eq_false] at hrok
    obtain ⟨hsr, hN⟩ := hrec
    by_cases hN0 : N = 0
    · subst hN0
      simp [scanLoop, hk, hrok, hsr, reachableLevels, ih1, ih2]
    · have hlt : level < N := by
        rcases hN with h | h
        · exact absurd h hN0
        · exact h
      have hle : level + 1 ≤ N := hlt
      simp [scanLoop, hk, hrok, hsr, hN0, hle, hlt, reachableLevels, ih1, ih2,
        List.filter_append, List.filter_cons, apply_ite
          (List.filter (fun x => decide (x ≤ N)))]
  · intro level name m rOk lok cs rest cur st hk cur1 hrok hc ih
    simp only [Bool.not_eq_false] at hrok
    by_cases hsr : fl.showRecursive = true
    · have hN : N ≠ 0 ∧ ¬(level < N) := by
        constructor
        · intro h0
          exact hc ⟨hsr, Or.inl h0⟩
        · intro hlt
          exact hc ⟨hsr, Or.inr hlt⟩
      have hnotle : ¬(level + 1 ≤ N) := by omega
      have h0 : (if lok = true then reachableLevels cs (level + 1)
          else []).filter (fun x => decide (x ≤ N)) = [] := by
        rw [List.filter_eq_nil_iff]
        intro x hxx
        split at hxx
        · have := reachableLevels_gt cs (level + 1) x hxx
          simp only [decide_eq_true_eq]
          omega
        · simp at hxx
      simp [scanLoop, hk, hrok, hc, hsr, hN.1, hN.2, reachableLevels, ih,
        List.filter_append, List.filter_cons, hnotle, h0]
    · simp [scanLoop, hk, hrok, hc, hsr, reachableLevels, ih]
  · intro level name m rOk lok cs rest cur st a hk cur1 hshow ih
    simpa [scanLoop, hk, hshow, reachableLevels] using ih
  · intro level name m lok cs rest cur st a hk cur1 hshow ih
    simpa [scanLoop, hk, hshow, reachableLevels] using ih
  · intro level name m rOk lok cs rest cur st a hk cur1 hshow hrok ih
    simpa [scanLoop, hk, hshow, hrok, reachableLevels] using ih

/-- C5: for every tree and depth limit N, the frames a scan enters from a
level-0 root are the root itself plus — exactly when recursion is enabled —
every reachable directory frame, all of them when N is 0 and precisely
those at level at most N otherwise; recursion from a frame at level L into
a successfully rendered subdirectory therefore happens exactly when
recursion is enabled and (N = 0 or L < N). -/
theorem C5_recursion_depth_limit (fl : Flags) (N : Nat) (lok : Bool)
    (cs : List FsTree) (st : ScanSt) :
    (scan_path fl N 0 lok cs st).visits =
      0 :: (if lok = true ∧ fl.showRecursive = true then
        (if N = 0 then reachableLevels cs 0
         else (reachableLevels cs 0).filter (fun x => decide (x ≤ N)))
       else []) :=
  (scan_visits_characterisation fl N).1 0 lok cs st

/-- C6: in exact mode an entry named "foo.txt" matches exactly the literal
pattern "foo.txt" (full-name equality); in stem-exact mode both "foo.txt"
and "foo.png" match pattern "foo", and in general a name matches a pattern
exactly when its stem equals the pattern; in substring mode "myfoobar"
matches pattern "foo", and in general a name matches a pattern exactly
when the pattern is a substring of the name. -/
theorem C6_search_mode_matching :
    (∀ pat : String,
      entryMatchesB flagsSearchExact "foo.txt" pat = true ↔ pat = "foo.txt") ∧
    entryMatchesB flagsSearchNoext "foo.txt" "foo" = true ∧
    entryMatchesB flagsSearchNoext "foo.png" "foo" = true ∧
    (∀ name pat : String,
      entryMatchesB flagsSearchNoext name pat = true ↔ fileStem name = pat) ∧
    entryMatchesB flagsSearchContains "myfoobar" "foo" = true ∧
    (∀ name pat : String,
      entryMatchesB flagsSearchContains name pat = true ↔
        List.IsInfix pat.toList name.toList) := by
  refine ⟨?_, by decide, by decide, ?_, by decide, ?_⟩
  · intro pat
    simp [entryMatchesB, flagsSearchExact, Flags.allOff]
    exact eq_comm
  · intro name pat
    simp [entryMatchesB, flagsSearchNoext, Flags.allOff]
  · intro name pat
    simp [entryMatchesB, flagsSearchContains, Flags.allOff]

/-- C10: in search mode, a symlink, regular file, or special entry whose
display flag is off is counted as traversed and the loop continues exactly
as if only that increment happened — no render is attempted and the match
accumulator is untouched, whether or not the name matches; a matching
directory, in contrast, always has its render attempted, whatever the
display flags. -/
theorem C10_search_display_gating (fl : Flags) (pat : String)
    (maxLevel level : Nat) (name : String) (m : Metadata) (rOk lok : Bool)
    (cs rest : List FsTree) (cur : EntryCounter) (st : SearchSt) :
    (classify m = EntryKind.symlink → fl.showSymlinks = false →
      searchLoop fl pat maxLevel level
          (FsTree.node name m rOk lok cs :: rest) cur st =
        searchLoop fl pat maxLevel level rest (cur.inc_symlink_cnt 1) st) ∧
    (classify m = EntryKind.file → fl.showFiles = false →
      searchLoop fl pat maxLevel level
          (FsTree.node name m rOk lok cs :: rest) cur st =
        searchLoop fl pat maxLevel level rest (cur.inc_file_cnt 1) st) ∧
    (∀ t, classify m = EntryKind.special t → fl.showSpecial = false →
      searchLoop fl pat maxLevel level
          (FsTree.node name m rOk lok cs :: rest) cur st =
        searchLoop fl pat maxLevel level rest (cur.inc_special_cnt 1) st) ∧
    (classify m = EntryKind.dir → entryMatchesB fl name pat = true →
      (EntryKind.dir, name) ∈
        (searchLoop fl pat maxLevel level
          (FsTree.node name m rOk lok cs :: rest) cur st).rends) := by
  refine ⟨?_, ?_, ?_, ?_⟩
  · intro hk hf
    simp [searchLoop, hk, hf]
  · intro hk hf
    simp [searchLoop, hk, hf]
  · intro t hk hf
    simp [searchLoop, hk, hf]
  · intro hk hmt
    by_cases hrec : fl.showRecursive = true ∧ (maxLevel = 0 ∨ level < maxLevel)
    · simp [searchLoop, hk, hmt, hrec]
    · simp [searchLoop, hk, hmt, hrec]

/-- Witness for C10: with substring search and no display flags, a symlink
entry is only counted as traversed, while a matching directory has its
render attempted. -/
theorem C10_search_display_gating_witness :
    (searchLoop flagsSearchContains "s" 0 0
        [FsTree.node "s1" ⟨true, false, false, false, false, false, false, 0⟩
          true true []]
        EntryCounter.new ⟨EntryCounter.new, EntryCounter.new⟩ =
      searchLoop flagsSearchContains "s" 0 0 []
        (EntryCounter.new.inc_symlink_cnt 1)
        ⟨EntryCounter.new, EntryCounter.new⟩) ∧
    (EntryKind.dir, "d") ∈
      (searchLoop flagsSearchContains "d" 0 0
        [FsTree.node "d" ⟨false, false, true, false, false, false, false, 0⟩
          true true []]
        EntryCounter.new ⟨EntryCounter.new, EntryCounter.new⟩).rends :=
  ⟨(C10_search_display_gating flagsSearchContains "s" 0 0 "s1"
      ⟨true, false, false, false, false, false, false, 0⟩ true true [] []
      EntryCounter.new ⟨EntryCounter.new, EntryCounter.new⟩).1
      (by decide) (by decide),
   (C10_search_display_gating flagsSearchContains "d" 0 0 "d"
      ⟨false, false, true, false, false, false, false, 0⟩ true true [] []
      EntryCounter.new ⟨EntryCounter.new, EntryCounter.new⟩).2.2.2
      (by decide) (by decide)⟩

/-- Error lines produced inside a scan traversal are on standard error
only, and none at all when error display is off. -/
theorem scan_errs_gated (fl : Flags) (N : Nat) :
    (∀ (level : Nat) (lok : Bool) (cs : List FsTree) (st : ScanSt),
        (fl.showErrors = false → (scan_path fl N level lok cs st).errs = []) ∧
        ∀ e ∈ (scan_path fl N level lok cs st).errs,
          ∃ s, e = OutEvent.errErr s) ∧
    ∀ (level : Nat) (l : List FsTree) (cur : EntryCounter) (st : ScanSt),
        (fl.showErrors = false → (scanLoop fl N level l cur st).errs = []) ∧
        ∀ e ∈ (scanLoop fl N level l cur st).errs,
          ∃ s, e = OutEvent.errErr s := by
  refine scan_path.mutual_induct fl N
    (fun level lok cs st =>
      (fl.showErrors = false → (scan_path fl N level lok cs st).errs = []) ∧
      ∀ e ∈ (scan_path fl N level lok cs st).errs, ∃ s, e = OutEvent.errErr s)
    (fun level l cur st =>
      (fl.showErrors = false → (scanLoop fl N level l cur st).errs = []) ∧
      ∀ e ∈ (scanLoop fl N level l cur st).errs, ∃ s, e = OutEvent.errErr s)
    ?_ ?_ ?_ ?_ ?_ ?_ ?_ ?_ ?_ ?_ ?_ ?_ ?_ ?_ ?_ ?_ ?_
  · intro level cs st ih
    simpa [scan_path] using ih
  · intro level lok cs st hlok
    simp only [Bool.not_eq_true] at hlok
    simp [scan_path, hlok]
  · intro level cur st
    simp [scanLoop]
  · intro level rest cur st ih
    simpa [scanLoop] using ih
  · intro level rest cur st ih
    simpa [scanLoop] using ih
  · intro level name m rOk lok cs rest cur st hk cur1 hshow ih
    simpa [scanLoop, hk, hshow] using ih
  · intro level name m lok cs rest cur st hk cur1 hshow ih
    simpa [scanLoop, hk, hshow] using ih
  · intro level name m rOk lok cs rest cur st hk cur1 hshow hrok ih
    simpa [scanLoop, hk, hshow, hrok] using ih
  · intro level name m rOk lok cs rest cur st hk cur1 hshow ih
    simpa [scanLoop, hk, hshow] using ih
  · intro level name m lok cs rest cur st hk cur1 hshow ih
    simpa [scanLoop, hk, hshow] using ih
  · intro level name m rOk lok cs rest cur st hk cur1 hshow hrok ih
    simpa [scanLoop, hk, hshow, hrok] using ih
  · intro level name m lok cs rest cur st hk cur1 ih
    simpa [scanLoop, hk] using ih
  · intro level name m rOk lok cs rest cur st hk cur1 hrok hrec r ih1 ih2
    simp only [Bool.not_eq_false] at hrok
    constructor
    · intro herr
      simp [scanLoop, hk, hrok, hrec, herr, ih1.1 herr, ih2.1 herr]
    · intro e he
      simp [scanLoop, hk, hrok, hrec, List.mem_append] at he
      rcases he with he | he
      · by_cases hcond : r.failed = true ∧ fl.showErrors = true
        · rw [if_pos hcond] at he
          rcases List.mem_append.mp he with he | he
          · exact ih1.2 e he
          · simp only [List.mem_singleton] at he
            exact ⟨iterErrMsg name, he⟩
        · rw [if_neg hcond] at he
          exact ih1.2 e he
      · exact ih2.2 e he
  · intro level name m rOk lok cs rest cur st hk cur1 hrok hrec ih
    simp only [Bool.not_eq_false] at hrok
    simpa [scanLoop, hk, hrok, hrec] using ih
  · intro level name m rOk lok cs rest cur st a hk cur1 hshow ih
    simpa [scanLoop, hk, hshow] using ih
  · intro level name m lok cs rest cur st a hk cur1 hshow ih
    simpa [scanLoop, hk, hshow] using ih
  · intro level name m rOk lok cs rest cur st a hk cur1 hshow hrok ih
    simpa [scanLoop, hk, hshow, hrok] using ih

/-- Error lines produced inside a search traversal are on standard error
only, and none at all when error display is off. -/
theorem search_errs_gated (fl : Flags) (pat : String) (N : Nat) :
    (∀ (level : Nat) (lok : Bool) (cs : List FsTree) (st : SearchSt),
        (fl.showErrors = false →
          (search_path fl pat N level lok cs st).errs = []) ∧
        ∀ e ∈ (search_path fl pat N level lok cs st).errs,
          ∃ s, e = OutEvent.errErr s) ∧
    ∀ (level : Nat) (l : List FsTree) (cur : EntryCounter) (st : SearchSt),
        (fl.showErrors = false → (searchLoop fl pat N level l cur st).errs = []) ∧
        ∀ e ∈ (searchLoop fl pat N level l cur st).errs,
          ∃ s, e = OutEvent.errErr s := by
  refine search_path.mutual_induct fl pat N
    (fun level lok cs st =>
      (fl.showErrors = false → (search_path fl pat N level lok cs st).errs = []) ∧
      ∀ e ∈ (search_path fl pat N level lok cs st).errs,
        ∃ s, e = OutEvent.errErr s)
    (fun level l cur st =>
      (fl.showErrors = false → (searchLoop fl pat N level l cur st).errs = []) ∧
      ∀ e ∈ (searchLoop fl pat N level l cur st).errs,
        ∃ s, e = OutEvent.errErr s)
    ?_ ?_ ?_ ?_ ?_ ?_ ?_ ?_ ?_ ?_ ?_ ?_ ?_ ?_ ?_ ?_
  · intro level cs st ih
    simpa [search_path] using ih
  · intro level lok cs st hlok
    simp only [Bool.not_eq_true] at hlok
    simp [search_path, hlok]
  · intro level cur st
    simp [searchLoop]
  · intro level rest cur st ih
    simpa [searchLoop] using ih
  · intro level rest cur st ih
    simpa [searchLoop] using ih
  · intro level name m rOk lok cs rest cur st hk hshow ih
    simpa [searchLoop, hk, hshow] using ih
  · intro level name m rOk lok cs rest cur st mt hk hshow hmt ih
    have hmt' : entryMatchesB fl name pat = false := hmt
    simpa [searchLoop, hk, hshow, hmt'] using ih
  · intro level name m rOk lok cs rest cur st mt hk hshow hmt ih ih'
    have hmt' : ¬entryMatchesB fl name pat = false := hmt
    by_cases hr : rOk = false
    · simpa [searchLoop, hk, hshow, hmt', hr] using ih
    · simpa [searchLoop, hk, hshow, hmt', hr] using ih'
  · intro level name m rOk lok cs rest cur st hk hshow ih
    simpa [searchLoop, hk, hshow] using ih
  · intro level name m rOk lok cs rest cur st mt hk hshow hmt ih
    have hmt' : entryMatchesB fl name pat = false := hmt
    simpa [searchLoop, hk, hshow, hmt'] using ih
  · intro level name m rOk lok cs rest cur st mt hk hshow hmt ih ih'
    have hmt' : ¬entryMatchesB fl name pat = false := hmt
    by_cases hr : rOk = false
    · simpa [searchLoop, hk, hshow, hmt', hr] using ih
    · simpa [searchLoop, hk, hshow, hmt', hr] using ih'
  · intro level name m rOk lok cs rest cur st mt hk cur2 st2 hrec r ih1 ih1' ih2
    have heq : (searchLoop fl pat N level
          (FsTree.node name m rOk lok cs :: rest) cur st).errs =
        (if r.failed = true ∧ fl.showErrors = true then
          r.errs ++ [OutEvent.errErr (iterErrMsg name)]
         else r.errs) ++ (searchLoop fl pat N level rest cur2 r.st).errs := by
      simp only [searchLoop, hk]
      rw [if_pos hrec]
      exact rfl
    constructor
    · intro herr
      rw [heq]
      simp [herr, ih2.1 herr]
      exact ih1.1 herr
    · intro e he
      rw [heq] at he
      rcases List.mem_append.mp he with he | he
      · by_cases hcond : r.failed = true ∧ fl.showErrors = true
        · rw [if_pos hcond] at he
          rcases List.mem_append.mp he with he | he
          · exact ih1.2 e he
          · simp only [List.mem_singleton] at he
            exact ⟨iterErrMsg name, he⟩
        · rw [if_neg hcond] at he
          exact ih1.2 e he
      · exact ih2.2 e he
  · intro level name m rOk lok cs rest cur st mt hk cur2 st2 hrec ih
    simpa [searchLoop, hk, hrec] using ih
  · intro level name m rOk lok cs rest cur st a hk hshow ih
    simpa [searchLoop, hk, hshow] using ih
  · intro level name m rOk lok cs rest cur st mt a hk hshow hmt ih
    have hmt' : entryMatchesB fl name pat = false := hmt
    simpa [searchLoop, hk, hshow, hmt'] using ih
  · intro level name m rOk lok cs rest cur st mt a hk hshow hmt ih ih'
    have hmt' : ¬entryMatchesB fl name pat = false := hmt
    by_cases hr : rOk = false
    · simpa [searchLoop, hk, hshow, hmt', hr] using ih
    · simpa [searchLoop, hk, hshow, hmt', hr] using ih'

/-- Counterexample to claim C9 as stated: in scan mode with error display
off, a root directory that cannot be listed still produces an error
message, and it is written to standard output. -/
theorem C9_counterexample :
    Flags.allOff.showErrors = false ∧
    scan_path_init Flags.allOff 0 "root" false [] =
      [OutEvent.errOut (iterErrMsg "root")] := by
  constructor
  · rfl
  · simp [scan_path_init, scan_path]

/-- C9 (amended), over every flag setting: error lines produced inside a
traversal are stderr lines, and there are none at all when error display
is off — with one exception: in scan mode a root-listing failure is
reported on standard output unconditionally (whatever the flags), while
search mode reports it on standard error exactly when error display is on
(so with it off a failing search run emits nothing). -/
theorem C9_error_stream_policy (fl : Flags) (N : Nat) (p pat : String)
    (lok : Bool) (cs : List FsTree) (st : ScanSt) (sst : SearchSt) :
    (fl.showErrors = false → (scan_path fl N 0 lok cs st).errs = [] ∧
      (search_path fl pat N 0 lok cs sst).errs = []) ∧
    (∀ e ∈ (scan_path fl N 0 lok cs st).errs, ∃ s, e = OutEvent.errErr s) ∧
    (∀ e ∈ (search_path fl pat N 0 lok cs sst).errs,
      ∃ s, e = OutEvent.errErr s) ∧
    scan_path_init fl N p false cs = [OutEvent.errOut (iterErrMsg p)] ∧
    search_path_init fl pat N p false cs =
      (if fl.showErrors = true then [OutEvent.errErr (iterErrMsg p)]
       else []) := by
  refine ⟨fun h => ⟨((scan_errs_gated fl N).1 0 lok cs st).1 h,
    ((search_errs_gated fl pat N).1 0 lok cs sst).1 h⟩,
    ((scan_errs_gated fl N).1 0 lok cs st).2,
    ((search_errs_gated fl pat N).1 0 lok cs sst).2,
    ?_, ?_⟩
  · simp [scan_path_init, scan_path]
  · by_cases h : fl.showErrors = true <;>
      simp [search_path_init, search_path, h]

/-- Witness for C9 (amended) at concrete inputs: an unlistable root, both
with error display off (no traversal error lines, scan reports on stdout,
search reports nothing) and with error display on (scan still reports on
stdout, search reports on stderr). -/
theorem C9_error_stream_policy_witness :
    Flags.allOff.showErrors = false ∧
    (scan_path Flags.allOff 0 0 false []
      ⟨EntryCounter.new, EntryCounter.new⟩).errs = [] ∧
    scan_path_init Flags.allOff 0 "r" false [] =
      [OutEvent.errOut (iterErrMsg "r")] ∧
    search_path_init Flags.allOff "p" 0 "r" false [] = [] ∧
    scan_path_init flagsErrOn 0 "r" false [] =
      [OutEvent.errOut (iterErrMsg "r")] ∧
    search_path_init flagsErrOn "p" 0 "r" false [] =
      [OutEvent.errErr (iterErrMsg "r")] :=
  ⟨rfl,
   ((C9_error_stream_policy Flags.allOff 0 "r" "p" false []
     ⟨EntryCounter.new, EntryCounter.new⟩
     ⟨EntryCounter.new, EntryCounter.new⟩).1 rfl).1,
   (C9_error_stream_policy Flags.allOff 0 "r" "p" false []
     ⟨EntryCounter.new, EntryCounter.new⟩
     ⟨EntryCounter.new, EntryCounter.new⟩).2.2.2.1,
   ((C9_error_stream_policy Flags.allOff 0 "r" "p" false []
     ⟨EntryCounter.new, EntryCounter.new⟩
     ⟨EntryCounter.new, EntryCounter.new⟩).2.2.2.2).trans (by simp [Flags.allOff]),
   (C9_error_stream_policy flagsErrOn 0 "r" "p" false []
     ⟨EntryCounter.new, EntryCounter.new⟩
     ⟨EntryCounter.new, EntryCounter.new⟩).2.2.2.1,
   ((C9_error_stream_policy flagsErrOn 0 "r" "p" false []
     ⟨EntryCounter.new, EntryCounter.new⟩
     ⟨EntryCounter.new, EntryCounter.new⟩).2.2.2.2).trans
       (by simp [flagsErrOn])⟩

/-- Clearing the pending-argument markers leaves the option mask alone. -/
theorem ParseState.resetMarks_flags (st : ParseState) :
    st.resetMarks.flags = st.flags := rfl

/-- Processing a dash argument either terminates the process with code -1
or continues with a state in which every search-mode bit that was set is
still set. -/
theorem parseDash_cases (st : ParseState) (a : String) (last : Bool) :
    parseDash st a last = StepResult.exit (-1) ∨
    ∃ st', parseDash st a last = StepResult.cont st' ∧
      ∀ mo, st.flags.modeBit mo = true → st'.flags.modeBit mo = true := by
  unfold parseDash
  by_cases h1 : a = "-h" ∨ a = "--help"
  · rw [if_pos h1]
    exact Or.inr ⟨_, rfl, fun mo hmo => by
      cases mo <;> simpa [ParseState.withHelp, Flags.modeBit] using hmo⟩
  rw [if_neg h1]
  by_cases h2 : a = "-e" ∨ a = "--show-err"
  · rw [if_pos h2]
    exact Or.inr ⟨_, rfl, fun mo hmo => by
      cases mo <;> simpa [ParseState.withShowErr, Flags.modeBit] using hmo⟩
  rw [if_neg h2]
  by_cases h3 : a = "-r" ∨ a = "--recursive"
  · rw [if_pos h3]
    exact Or.inr ⟨_, rfl, fun mo hmo => by
      cases mo <;> simpa [ParseState.withRecur, Flags.modeBit] using hmo⟩
  rw [if_neg h3]
  by_cases h4 : a = "-f" ∨ a = "--files"
  · rw [if_pos h4]
    exact Or.inr ⟨_, rfl, fun mo hmo => by
      cases mo <;> simpa [ParseState.withFiles, Flags.modeBit] using hmo⟩
  rw [if_neg h4]
  by_cases h5 : a = "-l" ∨ a = "--symlinks"
  · rw [if_pos h5]
    exact Or.inr ⟨_, rfl, fun mo hmo => by
      cases mo <;> simpa [ParseState.withSymlinks, Flags.modeBit] using hmo⟩
  rw [if_neg h5]
  by_cases h6 : a = "-s" ∨ a = "--special"
  · rw [if_pos h6]
    exact Or.inr ⟨_, rfl, fun mo hmo => by
      cases mo <;> simpa [ParseState.withSpecial, Flags.modeBit] using hmo⟩
  rw [if_neg h6]
  by_cases h7 : a = "-d" ∨ a = "--dir-size"
  · rw [if_pos h7]
    exact Or.inr ⟨_, rfl, fun mo hmo => by
      cases mo <;> simpa [ParseState.withDirSize, Flags.modeBit] using hmo⟩
  rw [if_neg h7]
  by_cases h8 : a = "-a" ∨ a = "--abs"
  · rw [if_pos h8]
    exact Or.inr ⟨_, rfl, fun mo hmo => by
      cases mo <;> simpa [ParseState.withAbs, Flags.modeBit] using hmo⟩
  rw [if_neg h8]
  by_cases h9 : a = "-S" ∨ a = "--search"
  · rw [if_pos h9]
    by_cases hc : st.flags.searchNoext = true ∨ st.flags.searchContains = true
    · rw [if_pos hc]
      exact Or.inl rfl
    · rw [if_neg hc]
      by_cases hl : last = true
      · rw [if_pos hl]
        exact Or.inl rfl
      · rw [if_neg hl]
        exact Or.inr ⟨_, rfl, fun mo hmo => by
          cases mo <;> simpa [ParseState.withExact, Flags.modeBit] using hmo⟩
  rw [if_neg h9]
  by_cases h10 : a = "--search-noext"
  · rw [if_pos h10]
    by_cases hc : st.flags.searchExact = true ∨ st.flags.searchContains = true
    · rw [if_pos hc]
      exact Or.inl rfl
    · rw [if_neg hc]
      by_cases hl : last = true
      · rw [if_pos hl]
        exact Or.inl rfl
      · rw [if_neg hl]
        exact Or.inr ⟨_, rfl, fun mo hmo => by
          cases mo <;> simpa [ParseState.withNoext, Flags.modeBit] using hmo⟩
  rw [if_neg h10]
  by_cases h11 : a = "--contains"
  · rw [if_pos h11]
    by_cases hc : st.flags.searchNoext = true ∨ st.flags.searchExact = true
    · rw [if_pos hc]
      exact Or.inl rfl
    · rw [if_neg hc]
      by_cases hl : last = true
      · rw [if_pos hl]
        exact Or.inl rfl
      · rw [if_neg hl]
        exact Or.inr ⟨_, rfl, fun mo hmo => by
          cases mo <;> simpa [ParseState.withContains, Flags.modeBit] using hmo⟩
  rw [if_neg h11]
  by_cases h12 : a = "-p" ∨ a = "--permissions"
  · rw [if_pos h12]
    exact Or.inr ⟨_, rfl, fun mo hmo => by
      cases mo <;> simpa [ParseState.withPerms, Flags.modeBit] using hmo⟩
  rw [if_neg h12]
  by_cases h13 : a = "-t" ∨ a = "--modification-time"
  · rw [if_pos h13]
    exact Or.inr ⟨_, rfl, fun mo hmo => by
      cases mo <;> simpa [ParseState.withTime, Flags.modeBit] using hmo⟩
  rw [if_neg h13]
  exact Or.inr ⟨_, rfl, fun mo hmo => by
    cases mo <;> simpa [ParseState.withWarn, Flags.modeBit] using hmo⟩

/-- Processing one nonempty argument either terminates the process with
code -1 or continues with a state in which every search-mode bit that was
set is still set (search-mode options are never cleared). -/
theorem parseStep_cases (st : ParseState) (a : String) (last : Bool)
    (ha : a ≠ "") :
    parseStep st a last = StepResult.exit (-1) ∨
    ∃ st', parseStep st a last = StepResult.cont st' ∧
      ∀ mo, st.flags.modeBit mo = true → st'.flags.modeBit mo = true := by
  have hlen : ¬(a.length = 0) := by
    intro h
    apply ha
    obtain ⟨data⟩ := a
    simp only [String.length] at h
    simp only [List.length_eq_zero] at h
    subst h
    rfl
  unfold parseStep
  rw [if_neg hlen]
  by_cases h1 : a.toList.head? ≠ some '-'
  · rw [if_pos h1]
    by_cases h2 : st.specifyRecurDepth = true
    · rw [if_pos h2]
      rcases hN : parseNat? a with _ | depth
      · simp only [hN]
        exact Or.inr ⟨_, rfl, fun mo hmo => by
          cases mo <;>
            simpa [ParseState.clearRecurMark, ParseState.noRecur,
              ParseState.withWarn, Flags.modeBit] using hmo⟩
      · simp only [hN]
        by_cases h3 : depth ≤ 0
        · rw [if_pos h3]
          exact Or.inr ⟨_, rfl, fun mo hmo => by
            cases mo <;>
              simpa [ParseState.clearRecurMark, ParseState.setDepth,
                ParseState.noRecur, ParseState.withWarn, Flags.modeBit]
                using hmo⟩
        · rw [if_neg h3]
          exact Or.inr ⟨_, rfl, fun mo hmo => by
            cases mo <;>
              simpa [ParseState.clearRecurMark, ParseState.setDepth,
                Flags.modeBit] using hmo⟩
    · rw [if_neg h2]
      by_cases h4 : st.specifySearchPath = true
      · rw [if_pos h4]
        exact Or.inr ⟨_, rfl, fun mo hmo => by
          cases mo <;> simpa [ParseState.withPat, Flags.modeBit] using hmo⟩
      · rw [if_neg h4]
        exact Or.inr ⟨_, rfl, fun mo hmo => by
          cases mo <;> simpa [ParseState.withInit, Flags.modeBit] using hmo⟩
  · rw [if_neg h1]
    refine (parseDash_cases st.resetMarks a last).imp id ?_
    rintro ⟨st', h, hp⟩
    exact ⟨st', h, fun mo hmo => hp mo hmo⟩

/-- A search-mode token names one of the four literal flag strings. -/
theorem modeOf_eq_some (a : String) (m : SearchMode)
    (hm : modeOf a = some m) :
    (a = "-S" ∨ a = "--search") ∧ m = SearchMode.exact ∨
    a = "--search-noext" ∧ m = SearchMode.noext ∨
    a = "--contains" ∧ m = SearchMode.contains := by
  unfold modeOf at hm
  split_ifs at hm with h1 h2 h3
  · exact Or.inl ⟨h1, (Option.some.inj hm).symm⟩
  · exact Or.inr (Or.inl ⟨h2, (Option.some.inj hm).symm⟩)
  · exact Or.inr (Or.inr ⟨h3, (Option.some.inj hm).symm⟩)

/-- Processing a search-mode token either terminates the process with code
-1 (mode conflict, or no following argument for the pattern) or, when an
argument follows, continues with that mode's bit set. -/
theorem parseStep_flag (st : ParseState) (a : String) (last : Bool)
    (m : SearchMode) (hm : modeOf a = some m) :
    parseStep st a last = StepResult.exit (-1) ∨
    (last = false ∧ ∃ st', parseStep st a last = StepResult.cont st' ∧
      st'.flags.modeBit m = true) := by
  have hl : last = true ∨ last = false := by
    cases last
    · exact Or.inr rfl
    · exact Or.inl rfl
  rcases modeOf_eq_some a m hm with ⟨ha, rfl⟩ | ⟨ha, rfl⟩ | ⟨ha, rfl⟩
  · rcases ha with rfl | rfl
    · by_cases hc : st.flags.searchNoext = true ∨ st.flags.searchContains = true
      · refine Or.inl ?_
        simp [parseStep, parseDash,
          (by decide : ¬(("-S" : String).length = 0)),
          (by decide : ("-S" : String).toList.head? = some '-'),
          ParseState.resetMarks, hc]
      · rcases hl with rfl | rfl
        · refine Or.inl ?_
          simp [parseStep, parseDash,
            (by decide : ¬(("-S" : String).length = 0)),
            (by decide : ("-S" : String).toList.head? = some '-'),
            ParseState.resetMarks, hc]
        · refine Or.inr ⟨rfl, st.resetMarks.withExact, ?_, rfl⟩
          simp [parseStep, parseDash,
            (by decide : ¬(("-S" : String).length = 0)),
            (by decide : ("-S" : String).toList.head? = some '-'),
            ParseState.resetMarks, hc]
    · by_cases hc : st.flags.searchNoext = true ∨ st.flags.searchContains = true
      · refine Or.inl ?_
        simp [parseStep, parseDash,
          (by decide : ¬(("--search" : String).length = 0)),
          (by decide : ("--search" : String).toList.head? = some '-'),
          ParseState.resetMarks, hc]
      · rcases hl with rfl | rfl
        · refine Or.inl ?_
          simp [parseStep, parseDash,
            (by decide : ¬(("--search" : String).length = 0)),
            (by decide : ("--search" : String).toList.head? = some '-'),
            ParseState.resetMarks, hc]
        · refine Or.inr ⟨rfl, st.resetMarks.withExact, ?_, rfl⟩
          simp [parseStep, parseDash,
            (by decide : ¬(("--search" : String).length = 0)),
            (by decide : ("--search" : String).toList.head? = some '-'),
            ParseState.resetMarks, hc]
  · subst ha
    by_cases hc : st.flags.searchExact = true ∨ st.flags.searchContains = true
    · refine Or.inl ?_
      simp [parseStep, parseDash,
        (by decide : ¬(("--search-noext" : String).length = 0)),
        (by decide : ("--search-noext" : String).toList.head? = some '-'),
        ParseState.resetMarks, hc]
    · rcases hl with rfl | rfl
      · refine Or.inl ?_
        simp [parseStep, parseDash,
          (by decide : ¬(("--search-noext" : String).length = 0)),
          (by decide : ("--search-noext" : String).toList.head? = some '-'),
          ParseState.resetMarks, hc]
      · refine Or.inr ⟨rfl, st.resetMarks.withNoext, ?_, rfl⟩
        simp [parseStep, parseDash,
          (by decide : ¬(("--search-noext" : String).length = 0)),
          (by decide : ("--search-noext" : String).toList.head? = some '-'),
          ParseState.resetMarks, hc]
  · subst ha
    by_cases hc : st.flags.searchNoext = true ∨ st.flags.searchExact = true
    · refine Or.inl ?_
      simp [parseStep, parseDash,
        (by decide : ¬(("--contains" : String).length = 0)),
        (by decide : ("--contains" : String).toList.head? = some '-'),
        ParseState.resetMarks, hc]
    · rcases hl with rfl | rfl
      · refine Or.inl ?_
        simp [parseStep, parseDash,
          (by decide : ¬(("--contains" : String).length = 0)),
          (by decide : ("--contains" : String).toList.head? = some '-'),
          ParseState.resetMarks, hc]
      · refine Or.inr ⟨rfl, st.resetMarks.withContains, ?_, rfl⟩
        simp [parseStep, parseDash,
          (by decide : ¬(("--contains" : String).length = 0)),
          (by decide : ("--contains" : String).toList.head? = some '-'),
          ParseState.resetMarks, hc]

/-- Processing a search-mode token while a different mode's bit is already
set terminates the process with code -1. -/
theorem parseStep_conflict (st : ParseState) (a : String) (last : Bool)
    (mo m : SearchMode) (hm : modeOf a = some m) (hne : m ≠ mo)
    (hbit : st.flags.modeBit mo = true) :
    parseStep st a last = StepResult.exit (-1) := by
  rcases modeOf_eq_some a m hm with ⟨ha, rfl⟩ | ⟨ha, rfl⟩ | ⟨ha, rfl⟩
  · rcases ha with rfl | rfl
    · cases mo with
      | exact => exact absurd rfl hne
      | noext =>
        have hb : st.flags.searchNoext = true := hbit
        simp [parseStep, parseDash,
          (by decide : ¬(("-S" : String).length = 0)),
          (by decide : ("-S" : String).toList.head? = some '-'),
          ParseState.resetMarks, hb]
      | contains =>
        have hb : st.flags.searchContains = true := hbit
        simp [parseStep, parseDash,
          (by decide : ¬(("-S" : String).length = 0)),
          (by decide : ("-S" : String).toList.head? = some '-'),
          ParseState.resetMarks, hb]
    · cases mo with
      | exact => exact absurd rfl hne
      | noext =>
        have hb : st.flags.searchNoext = true := hbit
        simp [parseStep, parseDash,
          (by decide : ¬(("--search" : String).length = 0)),
          (by decide : ("--search" : String).toList.head? = some '-'),
          ParseState.resetMarks, hb]
      | contains =>
        have hb : st.flags.searchContains = true := hbit
        simp [parseStep, parseDash,
          (by decide : ¬(("--search" : String).length = 0)),
          (by decide : ("--search" : String).toList.head? = some '-'),
          ParseState.resetMarks, hb]
  · subst ha
    cases mo with
    | noext => exact absurd rfl hne
    | exact =>
      have hb : st.flags.searchExact = true := hbit
      simp [parseStep, parseDash,
        (by decide : ¬(("--search-noext" : String).length = 0)),
        (by decide : ("--search-noext" : String).toList.head? = some '-'),
        ParseState.resetMarks, hb]
    | contains =>
      have hb : st.flags.searchContains = true := hbit
      simp [parseStep, parseDash,
        (by decide : ¬(("--search-noext" : String).length = 0)),
        (by decide : ("--search-noext" : String).toList.head? = some '-'),
        ParseState.resetMarks, hb]
  · subst ha
    cases mo with
    | contains => exact absurd rfl hne
    | exact =>
      have hb : st.flags.searchExact = true := hbit
      simp [parseStep, parseDash,
        (by decide : ¬(("--contains" : String).length = 0)),
        (by decide : ("--contains" : String).toList.head? = some '-'),
        ParseState.resetMarks, hb]
    | noext =>
      have hb : st.flags.searchNoext = true := hbit
      simp [parseStep, parseDash,
        (by decide : ¬(("--contains" : String).length = 0)),
        (by decide : ("--contains" : String).toList.head? = some '-'),
        ParseState.resetMarks, hb]

/-- A step that exits ends the loop with the same code. -/
theorem parseLoop_cons_exit (st : ParseState) (a : String)
    (rest : List String) (c : Int)
    (h : parseStep st a rest.isEmpty = StepResult.exit c) :
    parseLoop st (a :: rest) = ParseResult.exit c := by
  simp [parseLoop, h]

/-- A step that continues hands its state to the rest of the loop. -/
theorem parseLoop_cons_cont (st : ParseState) (a : String)
    (rest : List String) (st' : ParseState)
    (h : parseStep st a rest.isEmpty = StepResult.cont st') :
    parseLoop st (a :: rest) = parseLoop st' rest := by
  simp [parseLoop, h]

/-- Once a search-mode bit is set, an argument list still containing a
token of a different search mode makes the loop terminate with code -1. -/
theorem parseLoop_conflict (mo : SearchMode) :
    ∀ (args : List String) (st : ParseState),
      (∀ x ∈ args, x ≠ "") →
      st.flags.modeBit mo = true →
      (∃ a ∈ args, ∃ m', modeOf a = some m' ∧ m' ≠ mo) →
      parseLoop st args = ParseResult.exit (-1) := by
  intro args
  induction args with
  | nil =>
    intro st _ _ hex
    simp at hex
  | cons a rest ih =>
    intro st hne hbit hex
    rcases hex with ⟨b, hb, m', hm', hmm⟩
    rcases List.mem_cons.mp hb with rfl | hbrest
    · have hstep := parseStep_conflict st b rest.isEmpty mo m' hm' hmm hbit
      exact parseLoop_cons_exit st b rest (-1) hstep
    · have hane : a ≠ "" := hne a (List.mem_cons_self a rest)
      rcases parseStep_cases st a rest.isEmpty hane with hstep | ⟨st', hstep, hpres⟩
      · exact parseLoop_cons_exit st a rest (-1) hstep
      · refine (parseLoop_cons_cont st a rest st' hstep).trans ?_
        exact ih st' (fun x hx => hne x (List.mem_cons_of_mem a hx))
          (hpres mo hbit) ⟨b, hbrest, m', hm', hmm⟩

/-- C7: a command line containing two flags of different search modes
(each flag string necessarily starts with a dash, so it is always parsed
as a flag) makes argument parsing terminate the process with the non-zero
code -1, and no traversal is reached. The hypothesis excludes zero-length
arguments, on which the source program panics before reaching the flag. -/
theorem C7_conflicting_search_modes (xs ys zs : List String)
    (f1 f2 : String) (m1 m2 : SearchMode)
    (h1 : modeOf f1 = some m1) (h2 : modeOf f2 = some m2) (hne : m1 ≠ m2)
    (hargs : ∀ x ∈ xs ++ f1 :: ys ++ f2 :: zs, x ≠ "") :
    parseArgs (xs ++ f1 :: ys ++ f2 :: zs) = ParseResult.exit (-1) ∧
    traversalReached (xs ++ f1 :: ys ++ f2 :: zs) = false := by
  have hmain : ∀ (xs' : List String) (st : ParseState),
      (∀ x ∈ xs' ++ f1 :: ys ++ f2 :: zs, x ≠ "") →
      parseLoop st (xs' ++ f1 :: ys ++ f2 :: zs) = ParseResult.exit (-1) := by
    intro xs'
    induction xs' with
    | nil =>
      intro st hne'
      rcases parseStep_flag st f1 (ys ++ f2 :: zs).isEmpty m1 h1 with
        hstep | ⟨_, st', hstep, hbit⟩
      · exact parseLoop_cons_exit st f1 (ys ++ f2 :: zs) (-1) hstep
      · refine (parseLoop_cons_cont st f1 (ys ++ f2 :: zs) st' hstep).trans ?_
        refine parseLoop_conflict m1 (ys ++ f2 :: zs) st' ?_ hbit
          ⟨f2, by simp, m2, h2, Ne.symm hne⟩
        intro x hx
        exact hne' x (by simp [hx])
    | cons x xs'' ih =>
      intro st hne'
      have hx : x ≠ "" := hne' x (by simp)
      rcases parseStep_cases st x (xs'' ++ f1 :: ys ++ f2 :: zs).isEmpty hx with
        hstep | ⟨st', hstep, _⟩
      · exact parseLoop_cons_exit st x (xs'' ++ f1 :: ys ++ f2 :: zs) (-1) hstep
      · refine (parseLoop_cons_cont st x (xs'' ++ f1 :: ys ++ f2 :: zs) st'
          hstep).trans ?_
        exact ih st' (fun y hy => hne' y (List.mem_cons_of_mem x hy))
  have hp : parseArgs (xs ++ f1 :: ys ++ f2 :: zs) = ParseResult.exit (-1) :=
    hmain xs initParseState hargs
  refine ⟨hp, ?_⟩
  unfold traversalReached
  rw [hp]

/-- Witness for C7: the command line `-S p1 --contains p2` terminates
parsing with code -1 and never reaches a traversal. -/
theorem C7_conflicting_search_modes_witness :
    parseArgs ["-S", "p1", "--contains", "p2"] = ParseResult.exit (-1) ∧
    traversalReached ["-S", "p1", "--contains", "p2"] = false :=
  C7_conflicting_search_modes [] ["p1"] ["p2"] "-S" "--contains"
    SearchMode.exact SearchMode.contains (by decide) (by decide) (by decide)
    (by decide)

/-- Counterexample to claim C8 as stated: after `-r 0` recursion is
disabled, not enabled — unlike after plain `-r`. -/
theorem C8_counterexample :
    recursionEnabledAfter ["-r", "0"] = false ∧
    recursionEnabledAfter ["-r"] = true := by
  constructor
  · decide
  · decide

/-- C8 (amended): `-r 0` parses the depth 0 but, the parser requiring a
positive depth, disables recursion entirely and prints a warning; the
unlimited-depth behaviour (internal depth value 0) is what `-r` with no
numeric argument gives, with recursion enabled. -/
theorem C8_recursive_zero_disables :
    recursionEnabledAfter ["-r", "0"] = false ∧
    maxLevelAfter ["-r", "0"] = some 0 ∧
    warningsAfter ["-r", "0"] = [depthWarn] ∧
    recursionEnabledAfter ["-r"] = true ∧
    maxLevelAfter ["-r"] = some 0 := by
  refine ⟨by decide, by decide, by decide, by decide, by decide⟩
